import Mathlib

/-!
# RC calibration check (`src/modules/systemlib/rc_check.c`)

A shallow embedding of `rc_calibration_check` and the properties of its
defect counting and of its diagnostics.

Modelling conventions.

* `float` parameter values are exact rationals (`ℚ`): every comparison of the
  routine is between stored values, or between a stored value and a small
  integer constant, so no rounding takes part in a check.  NaN and the
  infinities are outside the model.  Where a property needs the fetched values
  to be numbers, it says so with `comparable_values`, which every rational
  meets and a NaN, on which every comparison is false, would not.
* `unsigned` counters are naturals reduced modulo `2 ^ 32` at every update, the
  `uint8_t` per-channel counter modulo `2 ^ 8`, and the `int` return value is
  the two's complement reading of the 32-bit sum.
* The calls to the diagnostic sink and the blocking delays are recorded, in
  program order, in a trace of `Event`s.
-/

namespace RcCheck

/-! ## Platform constants -/

/-- The constants of `drivers/drv_rc_input.h` that the routine reads.  The header
is not part of the sources at hand, so the values are parameters of the model:
non-negative integer literals (the routine prints three of them with `%u`). -/
structure RcInputLimits where
  RC_INPUT_MAX_CHANNELS : Nat
  RC_INPUT_LOWEST_MIN_US : Nat
  RC_INPUT_HIGHEST_MAX_US : Nat
  RC_INPUT_MAX_DEADZONE_US : Nat
deriving Repr

/-- The value the source defines as `RC_INPUT_MAP_UNMAPPED`. -/
def RC_INPUT_MAP_UNMAPPED : Int := 0

/-! ## Parameter store -/

/-- The parameter store as the routine sees it: the `INT32` parameters and the
`FLOAT` parameters, each a partial map from names to values.  The mapping
parameters (`RC_MAP_*`) are `INT32`, the per-channel calibration parameters
(`RCn_*`) are `FLOAT`.  A `FLOAT` value is an exact rational: a stored NaN has no
counterpart here, and a property that needs the fetched values to be numbers carries
`comparable_values` as a hypothesis. -/
structure ParamStore where
  int32 : String → Option Int
  float : String → Option ℚ

/-- Modelled from the spec: `param_find` of the parameter store (systemlib/param,
not among the sources): the handle of a named parameter, `none` standing for
`PARAM_INVALID`.  The view is the part of the store holding the parameters of
the type of the receiving variable. -/
def param_find {α : Type} (view : String → Option α) (name : String) : Option String :=
  if (view name).isSome then some name else none

/-- Modelled from the spec: `param_get` of the parameter store (systemlib/param,
not among the sources): copies the stored value into the variable; with an
invalid handle the variable keeps the value it had. -/
def param_get {α : Type} (view : String → Option α) (handle : Option String) (var : α) : α :=
  match handle with
  | none => var
  | some name => (view name).getD var

/-! ## Machine integers -/

/-- Reduction of an `unsigned` (32-bit) value. -/
def wrap32 (n : Nat) : Nat := n % 2 ^ 32

/-- Reduction of a `uint8_t` value. -/
def wrap8 (n : Nat) : Nat := n % 2 ^ 8

/-- Conversion of a 32-bit `unsigned` value to `int` (two's complement). -/
def toInt32 (u : Nat) : Int :=
  if u % 2 ^ 32 < 2 ^ 31 then ((u % 2 ^ 32 : Nat) : Int) else ((u % 2 ^ 32 : Nat) : Int) - 2 ^ 32

/-- The C cast `(int)x` of a `float`: truncation toward zero. -/
def float_to_int (x : ℚ) : Int := x.num.tdiv (x.den : Int)

/-! ## Effects -/

/-- What the routine does to the outside world, one event per call. -/
inductive Event where
  | mavlink_log_critical (fd : Int) (msg : String)
  | mavlink_and_console_log_critical (fd : Int) (msg : String)
  | usleep (usec : Nat)
  | sleep (sec : Nat)
deriving DecidableEq, Repr

/-- `printf`-style `%d` of a 32-bit `unsigned` argument. -/
def fmt_d_unsigned (u : Nat) : String := toString (toInt32 u)

/-- `printf`-style `%d` of an `int` argument. -/
def fmt_d (v : Int) : String := toString v

/-- `printf`-style `%u` of a constant. -/
def fmt_u (v : Nat) : String := toString v

/-- The name built by `sprintf(nbuf, "RC%d_<SUFFIX>", i + 1)`. -/
def channel_param_name (i : Nat) (suffix : String) : String :=
  "RC" ++ fmt_d_unsigned (wrap32 (i + 1)) ++ "_" ++ suffix

/-- The text of the summary: `"%d config error%s for %d RC channel%s."`. -/
def summary_text (total_fail_count channels_failed : Nat) : String :=
  fmt_d_unsigned total_fail_count ++ " config error" ++
    (if total_fail_count > 1 then "s" else "") ++ " for " ++
    fmt_d_unsigned channels_failed ++ " RC channel" ++
    (if channels_failed > 1 then "s" else "") ++ "."

/-! ## The mapping loop (lines 62-106) -/

/-- The mandatory mappings, without the end marker. -/
def rc_map_mandatory : List String := ["RC_MAP_MODE_SW"]

/-- The variables the mapping loop carries from one name to the next. -/
structure MapLoopState where
  trace : List Event
  map_fail_count : Nat
deriving DecidableEq, Repr

/-- One pass of the `while` loop over the mandatory mappings. -/
def map_check (c : RcInputLimits) (store : ParamStore) (mavlink_fd : Int) (report_fail : Bool)
    (s : MapLoopState) (name : String) : MapLoopState :=
  match param_find store.int32 name with
  | none =>
    let tr := if report_fail then
        s.trace ++ [Event.mavlink_log_critical mavlink_fd ("RC ERR: PARAM " ++ name ++ " MISSING")]
      else s.trace
    let tr := tr ++ [Event.usleep 100000]
    { trace := tr, map_fail_count := wrap32 (s.map_fail_count + 1) }
  | some map_parm =>
    let mapping : Int := param_get store.int32 (some map_parm) 0
    let s : MapLoopState :=
      if mapping > (c.RC_INPUT_MAX_CHANNELS : Int) then
        let tr := if report_fail then
            s.trace ++ [Event.mavlink_log_critical mavlink_fd ("RC ERR: " ++ name ++ " >= # CHANS")]
          else s.trace
        let tr := tr ++ [Event.usleep 100000]
        { trace := tr, map_fail_count := wrap32 (s.map_fail_count + 1) }
      else s
    let s : MapLoopState :=
      if mapping = 0 then
        let tr := if report_fail then
            s.trace ++ [Event.mavlink_log_critical mavlink_fd
              ("RC ERR: Mandatory " ++ name ++ " is unmapped")]
          else s.trace
        let tr := tr ++ [Event.usleep 100000]
        { trace := tr, map_fail_count := wrap32 (s.map_fail_count + 1) }
      else s
    s

/-- The whole mapping loop over a list of names, from a given trace and a zero counter. -/
def map_loop (c : RcInputLimits) (store : ParamStore) (mavlink_fd : Int) (report_fail : Bool)
    (names : List String) (s : MapLoopState) : MapLoopState :=
  names.foldl (map_check c store mavlink_fd report_fail) s

/-! ## The channel loop (lines 108-198) -/

/-- The five values the loop body fetches for one channel. -/
structure ChannelCalibration where
  param_min : ℚ
  param_trim : ℚ
  param_max : ℚ
  param_rev : ℚ
  param_dz : ℚ
deriving DecidableEq, Repr

/-- Lines 115-145: the initial values and the five `param_find`/`param_get` pairs. -/
def fetch_channel (c : RcInputLimits) (store : ParamStore) (i : Nat) : ChannelCalibration :=
  let param_min : ℚ := 0
  let param_max : ℚ := 0
  let param_trim : ℚ := 0
  let param_rev : ℚ := 0
  let param_dz : ℚ := (c.RC_INPUT_MAX_DEADZONE_US : ℚ) * 2
  let param_min := param_get store.float (param_find store.float (channel_param_name i "MIN")) param_min
  let param_trim := param_get store.float (param_find store.float (channel_param_name i "TRIM")) param_trim
  let param_max := param_get store.float (param_find store.float (channel_param_name i "MAX")) param_max
  let param_rev := param_get store.float (param_find store.float (channel_param_name i "REV")) param_rev
  let param_dz := param_get store.float (param_find store.float (channel_param_name i "DZ")) param_dz
  { param_min := param_min, param_trim := param_trim, param_max := param_max,
    param_rev := param_rev, param_dz := param_dz }

/-- The trace and the `uint8_t count` local of one pass of the channel loop. -/
structure ChannelLocals where
  trace : List Event
  count : Nat
deriving DecidableEq, Repr

/-- Lines 148-155: the check of `param_min` against the lowest permitted minimum. -/
def check_min (c : RcInputLimits) (mavlink_fd : Int) (report_fail : Bool) (i : Nat)
    (v : ChannelCalibration) (s : ChannelLocals) : ChannelLocals :=
  if v.param_min < (c.RC_INPUT_LOWEST_MIN_US : ℚ) then
    let count := wrap8 (s.count + 1)
    let tr := if report_fail then
        s.trace ++ [Event.mavlink_log_critical mavlink_fd
          ("RC ERR: RC_" ++ fmt_d_unsigned (wrap32 (i + 1)) ++ "_MIN < " ++
            fmt_u c.RC_INPUT_LOWEST_MIN_US)]
      else s.trace
    { trace := tr ++ [Event.usleep 100000], count := count }
  else s

/-- Lines 157-164: the check of `param_max` against the highest permitted maximum. -/
def check_max (c : RcInputLimits) (mavlink_fd : Int) (report_fail : Bool) (i : Nat)
    (v : ChannelCalibration) (s : ChannelLocals) : ChannelLocals :=
  if v.param_max > (c.RC_INPUT_HIGHEST_MAX_US : ℚ) then
    let count := wrap8 (s.count + 1)
    let tr := if report_fail then
        s.trace ++ [Event.mavlink_log_critical mavlink_fd
          ("RC ERR: RC_" ++ fmt_d_unsigned (wrap32 (i + 1)) ++ "_MAX > " ++
            fmt_u c.RC_INPUT_HIGHEST_MAX_US)]
      else s.trace
    { trace := tr ++ [Event.usleep 100000], count := count }
  else s

/-- Lines 166-173: the check `param_trim < param_min`. -/
def check_trim_min (mavlink_fd : Int) (report_fail : Bool) (i : Nat)
    (v : ChannelCalibration) (s : ChannelLocals) : ChannelLocals :=
  if v.param_trim < v.param_min then
    let count := wrap8 (s.count + 1)
    let tr := if report_fail then
        s.trace ++ [Event.mavlink_log_critical mavlink_fd
          ("RC ERR: RC_" ++ fmt_d_unsigned (wrap32 (i + 1)) ++ "_TRIM < MIN (" ++
            fmt_d (float_to_int v.param_trim) ++ "/" ++ fmt_d (float_to_int v.param_min) ++ ")")]
      else s.trace
    { trace := tr ++ [Event.usleep 100000], count := count }
  else s

/-- Lines 175-182: the check `param_trim > param_max`. -/
def check_trim_max (mavlink_fd : Int) (report_fail : Bool) (i : Nat)
    (v : ChannelCalibration) (s : ChannelLocals) : ChannelLocals :=
  if v.param_trim > v.param_max then
    let count := wrap8 (s.count + 1)
    let tr := if report_fail then
        s.trace ++ [Event.mavlink_log_critical mavlink_fd
          ("RC ERR: RC_" ++ fmt_d_unsigned (wrap32 (i + 1)) ++ "_TRIM > MAX (" ++
            fmt_d (float_to_int v.param_trim) ++ "/" ++ fmt_d (float_to_int v.param_max) ++ ")")]
      else s.trace
    { trace := tr ++ [Event.usleep 100000], count := count }
  else s

/-- Lines 185-191: the check of `param_dz` against the largest permitted deadzone. -/
def check_dz (c : RcInputLimits) (mavlink_fd : Int) (report_fail : Bool) (i : Nat)
    (v : ChannelCalibration) (s : ChannelLocals) : ChannelLocals :=
  if v.param_dz > (c.RC_INPUT_MAX_DEADZONE_US : ℚ) then
    let tr := if report_fail then
        s.trace ++ [Event.mavlink_log_critical mavlink_fd
          ("RC ERR: RC_" ++ fmt_d_unsigned (wrap32 (i + 1)) ++ "_DZ > " ++
            fmt_u c.RC_INPUT_MAX_DEADZONE_US)]
      else s.trace
    let tr := tr ++ [Event.usleep 100000]
    { trace := tr, count := wrap8 (s.count + 1) }
  else s

/-- Lines 147-191: the five checks on the fetched values, in program order, from
`count = 0`. -/
def channel_checks (c : RcInputLimits) (mavlink_fd : Int) (report_fail : Bool) (i : Nat)
    (v : ChannelCalibration) (tr : List Event) : ChannelLocals :=
  let s : ChannelLocals := { trace := tr, count := 0 }
  let s := check_min c mavlink_fd report_fail i v s
  let s := check_max c mavlink_fd report_fail i v s
  let s := check_trim_min mavlink_fd report_fail i v s
  let s := check_trim_max mavlink_fd report_fail i v s
  let s := check_dz c mavlink_fd report_fail i v s
  s

/-- The variables the channel loop carries from one channel to the next. -/
structure ChanLoopState where
  trace : List Event
  total_fail_count : Nat
  channels_failed : Nat
deriving DecidableEq, Repr

/-- One pass of the `for` loop: fetch, check, and the two updates of lines 193-197. -/
def channel_iter (c : RcInputLimits) (store : ParamStore) (mavlink_fd : Int) (report_fail : Bool)
    (s : ChanLoopState) (i : Nat) : ChanLoopState :=
  let r := channel_checks c mavlink_fd report_fail i (fetch_channel c store i) s.trace
  let total_fail_count := wrap32 (s.total_fail_count + r.count)
  let channels_failed := if r.count ≠ 0 then wrap32 (s.channels_failed + 1) else s.channels_failed
  { trace := r.trace, total_fail_count := total_fail_count, channels_failed := channels_failed }

/-- The `for` loop over `i = 0 .. RC_INPUT_MAX_CHANNELS - 1`. -/
def channel_loop (c : RcInputLimits) (store : ParamStore) (mavlink_fd : Int) (report_fail : Bool)
    (s : ChanLoopState) : ChanLoopState :=
  (List.range c.RC_INPUT_MAX_CHANNELS).foldl (channel_iter c store mavlink_fd report_fail) s

/-! ## The routine -/

/-- What a call leaves behind: the trace of its effects and the returned `int`. -/
structure Outcome where
  trace : List Event
  ret : Int
deriving DecidableEq, Repr

/-- The routine `rc_calibration_check(mavlink_fd, report_fail)`, run on a store. -/
def rc_calibration_check (c : RcInputLimits) (store : ParamStore) (mavlink_fd : Int)
    (report_fail : Bool) : Outcome :=
  let m := map_loop c store mavlink_fd report_fail rc_map_mandatory { trace := [], map_fail_count := 0 }
  let s := channel_loop c store mavlink_fd report_fail
    { trace := m.trace, total_fail_count := 0, channels_failed := 0 }
  let tr :=
    if s.channels_failed ≠ 0 then
      let tr := s.trace ++ [Event.sleep 2]
      let tr := if report_fail then
          tr ++ [Event.mavlink_and_console_log_critical mavlink_fd
            (summary_text s.total_fail_count s.channels_failed)]
        else tr
      tr ++ [Event.usleep 100000]
    else s.trace
  { trace := tr, ret := toInt32 (wrap32 (s.total_fail_count + m.map_fail_count)) }

/-! ## Quantities the properties are stated with -/

/-- The per-channel counter: the value of the local `count` at the end of the
pass of the channel loop with index `i` (channel `i + 1`). -/
def channel_defects (c : RcInputLimits) (store : ParamStore) (i : Nat) : Nat :=
  (channel_checks c 0 false i (fetch_channel c store i) []).count

/-- The mapping-failure counter: the value of `map_fail_count` when the loop over
the mandatory mappings is left. -/
def mapping_failures (c : RcInputLimits) (store : ParamStore) : Nat :=
  (map_loop c store 0 false rc_map_mandatory { trace := [], map_fail_count := 0 }).map_fail_count

/-- The number of checks of the loop body whose condition holds of the fetched values. -/
def checks_fired (c : RcInputLimits) (v : ChannelCalibration) : Nat :=
  (if v.param_min < (c.RC_INPUT_LOWEST_MIN_US : ℚ) then 1 else 0) +
  (if v.param_max > (c.RC_INPUT_HIGHEST_MAX_US : ℚ) then 1 else 0) +
  (if v.param_trim < v.param_min then 1 else 0) +
  (if v.param_trim > v.param_max then 1 else 0) +
  (if v.param_dz > (c.RC_INPUT_MAX_DEADZONE_US : ℚ) then 1 else 0)

/-- The failures of one mandatory mapping name, as the specification lists them:
`MissingMapping` when the name is absent, `OutOfRange` when the index exceeds the
channel count, `Unmapped` when the index is the sentinel 0. -/
def mapping_failures_of (c : RcInputLimits) (store : ParamStore) (name : String) : Nat :=
  match store.int32 name with
  | none => 1
  | some mapping =>
    (if mapping > (c.RC_INPUT_MAX_CHANNELS : Int) then 1 else 0) + (if mapping = 0 then 1 else 0)

/-- The number of violated invariants of `ChannelCalibration`, as the data model of
the specification lists them: `LOWEST_MIN ≤ min`, `max ≤ HIGHEST_MAX`,
`min ≤ trim`, `trim ≤ max`, `0 ≤ deadzone ≤ MAX_DEADZONE`. -/
def violated_invariants (c : RcInputLimits) (v : ChannelCalibration) : Nat :=
  (if (c.RC_INPUT_LOWEST_MIN_US : ℚ) ≤ v.param_min then 0 else 1) +
  (if v.param_max ≤ (c.RC_INPUT_HIGHEST_MAX_US : ℚ) then 0 else 1) +
  (if v.param_min ≤ v.param_trim then 0 else 1) +
  (if v.param_trim ≤ v.param_max then 0 else 1) +
  (if 0 ≤ v.param_dz ∧ v.param_dz ≤ (c.RC_INPUT_MAX_DEADZONE_US : ℚ) then 0 else 1)

/-- The number of violated invariants when the deadzone invariant is read without its
lower bound: `LOWEST_MIN ≤ min`, `max ≤ HIGHEST_MAX`, `min ≤ trim`, `trim ≤ max`,
`deadzone ≤ MAX_DEADZONE`. -/
def violated_upper_invariants (c : RcInputLimits) (v : ChannelCalibration) : Nat :=
  (if (c.RC_INPUT_LOWEST_MIN_US : ℚ) ≤ v.param_min then 0 else 1) +
  (if v.param_max ≤ (c.RC_INPUT_HIGHEST_MAX_US : ℚ) then 0 else 1) +
  (if v.param_min ≤ v.param_trim then 0 else 1) +
  (if v.param_trim ≤ v.param_max then 0 else 1) +
  (if v.param_dz ≤ (c.RC_INPUT_MAX_DEADZONE_US : ℚ) then 0 else 1)

/-- Recognises a per-defect diagnostic (`mavlink_log_critical`). -/
def is_defect_diagnostic : Event → Bool
  | Event.mavlink_log_critical _ _ => true
  | _ => false

/-- Recognises the summary diagnostic (`mavlink_and_console_log_critical`). -/
def is_summary_diagnostic : Event → Bool
  | Event.mavlink_and_console_log_critical _ _ => true
  | _ => false

/-- The constants of the worked examples: 18 channels, and the lowest minimum of 900
of the specification's example. -/
def example_limits : RcInputLimits :=
  { RC_INPUT_MAX_CHANNELS := 18, RC_INPUT_LOWEST_MIN_US := 900,
    RC_INPUT_HIGHEST_MAX_US := 2100, RC_INPUT_MAX_DEADZONE_US := 500 }

/-- The store with no parameter at all. -/
def empty_store : ParamStore := { int32 := fun _ => none, float := fun _ => none }

/-- A store updated at one `INT32` name. -/
def set_int32 (store : ParamStore) (name : String) (v : Int) : ParamStore :=
  { store with int32 := fun n => if n = name then some v else store.int32 n }

/-- A store updated at one `FLOAT` name. -/
def set_float (store : ParamStore) (name : String) (v : ℚ) : ParamStore :=
  { store with float := fun n => if n = name then some v else store.float n }

/-- The suffixes of the five per-channel parameter names, in the order of the fetches. -/
def channel_suffixes : List String := ["MIN", "TRIM", "MAX", "REV", "DZ"]

/-- A store holding a sound calibration of channel 3 and nothing else:
`RC3_MIN = 1000`, `RC3_TRIM = 1500`, `RC3_MAX = 2000`, `RC3_REV = 1`, `RC3_DZ = 10`. -/
def channel3_store : ParamStore :=
  set_float (set_float (set_float (set_float (set_float empty_store
    "RC3_MIN" 1000) "RC3_TRIM" 1500) "RC3_MAX" 2000) "RC3_REV" 1) "RC3_DZ" 10

/-- The store of `channel3_store` with the deadzone of channel 3 set to `-1`. -/
def negative_dz_store : ParamStore := set_float channel3_store "RC3_DZ" (-1)

/-- The store of `channel3_store` with the minimum of channel 3 set to 850, below
the lowest minimum of 900 of `example_limits`. -/
def low_min_store : ParamStore := set_float channel3_store "RC3_MIN" 850

/-- A store whose only parameter is `RC_MAP_MODE_SW = 0`, the unmapped sentinel. -/
def unmapped_store : ParamStore := set_int32 empty_store "RC_MAP_MODE_SW" 0

/-- A store whose only parameter is `RC_MAP_MODE_SW = -1`. -/
def negative_mapping_store : ParamStore := set_int32 empty_store "RC_MAP_MODE_SW" (-1)

/-- A store whose only parameters are `RC1_REV = 1` and `RC1_DZ = 10`: channel 1 has
neither minimum, trim nor maximum. -/
def rev_dz_only_store : ParamStore :=
  set_float (set_float empty_store "RC1_REV" 1) "RC1_DZ" 10

/-- A store updated at the five parameters of the channel with loop index `i`. -/
def set_channel (store : ParamStore) (i : Nat) (vmin vtrim vmax vrev vdz : ℚ) : ParamStore :=
  set_float (set_float (set_float (set_float (set_float store
    (channel_param_name i "MIN") vmin) (channel_param_name i "TRIM") vtrim)
    (channel_param_name i "MAX") vmax) (channel_param_name i "REV") vrev)
    (channel_param_name i "DZ") vdz

/-- The constants of the small worked examples: as `example_limits`, with 3 channels. -/
def three_channel_limits : RcInputLimits :=
  { RC_INPUT_MAX_CHANNELS := 3, RC_INPUT_LOWEST_MIN_US := 900,
    RC_INPUT_HIGHEST_MAX_US := 2100, RC_INPUT_MAX_DEADZONE_US := 500 }

/-- A store for three channels with `RC_MAP_MODE_SW = 1`, channels 1 and 2 sound, and
channel 3 with `min = 850` and otherwise sound values: one defect in one channel. -/
def one_defect_store : ParamStore :=
  set_channel (set_channel (set_channel (set_int32 empty_store "RC_MAP_MODE_SW" 1)
    0 1000 1500 2000 1 10) 1 1000 1500 2000 1 10) 2 850 1500 2000 1 10

/-- A store for three channels with `RC_MAP_MODE_SW = 1`, channel 1 with `min = 850`
and `max = 2200`, channel 2 sound, channel 3 with `min = 850`: three defects in two
channels. -/
def three_defect_store : ParamStore :=
  set_channel (set_channel (set_channel (set_int32 empty_store "RC_MAP_MODE_SW" 1)
    0 850 1500 2200 1 10) 1 1000 1500 2000 1 10) 2 850 1500 2000 1 10

/-- A store whose channel 3 has `min = 800`, `trim = 700`, `max = 600`, `dz = 1000`:
with the example constants the checks of the minimum, of the trim against the
minimum, of the trim against the maximum and of the deadzone all fire. -/
def four_defect_store : ParamStore := set_channel empty_store 2 800 700 600 1 1000

/-- The store of `channel3_store` with the reverse flag of channel 3 set to `-1`. -/
def reversed_store : ParamStore := set_float channel3_store "RC3_REV" (-1)

/-- The text of the summary in the words of the specification:
`"N config error<s> for M RC channel<s>."`, the first plural `s` present when
`N > 1` and the second when `M > 1`. -/
def spec_summary_text (N M : Nat) : String :=
  toString N ++ " config error" ++ (if N > 1 then "s" else "") ++ " for " ++
    toString M ++ " RC channel" ++ (if M > 1 then "s" else "") ++ "."

/-- Recognises a diagnostic of either kind. -/
def is_diagnostic (e : Event) : Bool := is_defect_diagnostic e || is_summary_diagnostic e

/-- Recognises a blocking delay of either kind (`usleep` or `sleep`). -/
def is_delay : Event → Bool
  | Event.usleep _ => true
  | Event.sleep _ => true
  | _ => false

/-- Recognises what the two loops may leave in the trace: a per-defect diagnostic or
a pacing delay of 100 ms. -/
def is_pacing_step : Event → Bool
  | Event.mavlink_log_critical _ _ => true
  | Event.usleep usec => usec == 100000
  | _ => false

/-- The number of channels, among the loop indices below the channel count, that are
counted with at least one defect. -/
def failed_channels (c : RcInputLimits) (store : ParamStore) : Nat :=
  (List.range c.RC_INPUT_MAX_CHANNELS).countP (fun i => decide (channel_defects c store i ≠ 0))

/-- The sum of the per-channel counters over the loop indices below the channel count. -/
def total_channel_defects (c : RcInputLimits) (store : ParamStore) : Nat :=
  ((List.range c.RC_INPUT_MAX_CHANNELS).map (channel_defects c store)).sum

/-- The state in which the channel loop is left by a call. -/
def final_loop_state (c : RcInputLimits) (store : ParamStore) (mavlink_fd : Int)
    (report_fail : Bool) : ChanLoopState :=
  channel_loop c store mavlink_fd report_fail
    { trace := (map_loop c store mavlink_fd report_fail rc_map_mandatory
        { trace := [], map_fail_count := 0 }).trace,
      total_fail_count := 0, channels_failed := 0 }

/-- The proviso that the values fetched for a channel are exact numbers, in the form
the checks need it: each comparison of lines 148-185 holds or its converse does.
Every rational meets it; a `float` NaN, on which every comparison is false, is what it
excludes. -/
def comparable_values (c : RcInputLimits) (v : ChannelCalibration) : Prop :=
  (v.param_min < (c.RC_INPUT_LOWEST_MIN_US : ℚ) ∨ (c.RC_INPUT_LOWEST_MIN_US : ℚ) ≤ v.param_min) ∧
  (v.param_max > (c.RC_INPUT_HIGHEST_MAX_US : ℚ) ∨
    v.param_max ≤ (c.RC_INPUT_HIGHEST_MAX_US : ℚ)) ∧
  (v.param_trim < v.param_min ∨ v.param_min ≤ v.param_trim) ∧
  (v.param_trim > v.param_max ∨ v.param_trim ≤ v.param_max) ∧
  (v.param_dz > (c.RC_INPUT_MAX_DEADZONE_US : ℚ) ∨
    v.param_dz ≤ (c.RC_INPUT_MAX_DEADZONE_US : ℚ))

instance (c : RcInputLimits) (v : ChannelCalibration) : Decidable (comparable_values c v) := by
  unfold comparable_values
  infer_instance

/-- A store whose channel 3 has a minimum, a trim, a reverse flag and a deadzone, all
sound, and no maximum: `RC3_MIN = 1000`, `RC3_TRIM = 1500`, `RC3_REV = 1`,
`RC3_DZ = 10`. -/
def no_max_store : ParamStore :=
  set_float (set_float (set_float (set_float empty_store
    "RC3_MIN" 1000) "RC3_TRIM" 1500) "RC3_REV" 1) "RC3_DZ" 10

/-- A store whose channel 3 has a minimum, a maximum, a reverse flag and a deadzone,
all sound, and no trim: `RC3_MIN = 1000`, `RC3_MAX = 2000`, `RC3_REV = 1`,
`RC3_DZ = 10`. -/
def no_trim_store : ParamStore :=
  set_float (set_float (set_float (set_float empty_store
    "RC3_MIN" 1000) "RC3_MAX" 2000) "RC3_REV" 1) "RC3_DZ" 10

/-! ## Lemmas on the store and on the channel checks -/

theorem param_get_find {α : Type} (view : String → Option α) (name : String) (var : α) :
    param_get view (param_find view name) var = (view name).getD var := by
  unfold param_find param_get
  cases h : view name <;> simp [h]

theorem check_min_count (c : RcInputLimits) (fd : Int) (rf : Bool) (i : Nat)
    (v : ChannelCalibration) (s : ChannelLocals) :
    (check_min c fd rf i v s).count =
      if v.param_min < (c.RC_INPUT_LOWEST_MIN_US : ℚ) then wrap8 (s.count + 1) else s.count := by
  unfold check_min
  split_ifs <;> rfl

theorem check_max_count (c : RcInputLimits) (fd : Int) (rf : Bool) (i : Nat)
    (v : ChannelCalibration) (s : ChannelLocals) :
    (check_max c fd rf i v s).count =
      if v.param_max > (c.RC_INPUT_HIGHEST_MAX_US : ℚ) then wrap8 (s.count + 1) else s.count := by
  unfold check_max
  split_ifs <;> rfl

theorem check_trim_min_count (fd : Int) (rf : Bool) (i : Nat)
    (v : ChannelCalibration) (s : ChannelLocals) :
    (check_trim_min fd rf i v s).count =
      if v.param_trim < v.param_min then wrap8 (s.count + 1) else s.count := by
  unfold check_trim_min
  split_ifs <;> rfl

theorem check_trim_max_count (fd : Int) (rf : Bool) (i : Nat)
    (v : ChannelCalibration) (s : ChannelLocals) :
    (check_trim_max fd rf i v s).count =
      if v.param_trim > v.param_max then wrap8 (s.count + 1) else s.count := by
  unfold check_trim_max
  split_ifs <;> rfl

theorem check_dz_count (c : RcInputLimits) (fd : Int) (rf : Bool) (i : Nat)
    (v : ChannelCalibration) (s : ChannelLocals) :
    (check_dz c fd rf i v s).count =
      if v.param_dz > (c.RC_INPUT_MAX_DEADZONE_US : ℚ) then wrap8 (s.count + 1) else s.count := by
  unfold check_dz
  split_ifs <;> rfl

/-- The local `count` ends as the number of checks that fired; the 8-bit counter
never wraps. -/
theorem channel_checks_count (c : RcInputLimits) (fd : Int) (rf : Bool) (i : Nat)
    (v : ChannelCalibration) (tr : List Event) :
    (channel_checks c fd rf i v tr).count = checks_fired c v := by
  unfold channel_checks checks_fired
  simp only [check_dz_count, check_trim_max_count, check_trim_min_count, check_max_count,
    check_min_count]
  split_ifs <;> simp [wrap8]

theorem channel_defects_eq (c : RcInputLimits) (store : ParamStore) (i : Nat) :
    channel_defects c store i = checks_fired c (fetch_channel c store i) :=
  channel_checks_count c 0 false i _ []

theorem checks_fired_le (c : RcInputLimits) (v : ChannelCalibration) : checks_fired c v ≤ 5 := by
  unfold checks_fired
  split_ifs <;> omega

theorem channel_defects_le (c : RcInputLimits) (store : ParamStore) (i : Nat) :
    channel_defects c store i ≤ 5 := by
  rw [channel_defects_eq]; exact checks_fired_le c _

theorem check_min_diag (c : RcInputLimits) (fd : Int) (i : Nat)
    (v : ChannelCalibration) (s : ChannelLocals) :
    (check_min c fd true i v s).trace.countP is_defect_diagnostic =
      s.trace.countP is_defect_diagnostic +
        (if v.param_min < (c.RC_INPUT_LOWEST_MIN_US : ℚ) then 1 else 0) := by
  unfold check_min
  split_ifs <;> simp_all [is_defect_diagnostic, List.countP_append]

theorem check_max_diag (c : RcInputLimits) (fd : Int) (i : Nat)
    (v : ChannelCalibration) (s : ChannelLocals) :
    (check_max c fd true i v s).trace.countP is_defect_diagnostic =
      s.trace.countP is_defect_diagnostic +
        (if v.param_max > (c.RC_INPUT_HIGHEST_MAX_US : ℚ) then 1 else 0) := by
  unfold check_max
  split_ifs <;> simp_all [is_defect_diagnostic, List.countP_append]

theorem check_trim_min_diag (fd : Int) (i : Nat)
    (v : ChannelCalibration) (s : ChannelLocals) :
    (check_trim_min fd true i v s).trace.countP is_defect_diagnostic =
      s.trace.countP is_defect_diagnostic + (if v.param_trim < v.param_min then 1 else 0) := by
  unfold check_trim_min
  split_ifs <;> simp_all [is_defect_diagnostic, List.countP_append]

theorem check_trim_max_diag (fd : Int) (i : Nat)
    (v : ChannelCalibration) (s : ChannelLocals) :
    (check_trim_max fd true i v s).trace.countP is_defect_diagnostic =
      s.trace.countP is_defect_diagnostic + (if v.param_trim > v.param_max then 1 else 0) := by
  unfold check_trim_max
  split_ifs <;> simp_all [is_defect_diagnostic, List.countP_append]

theorem check_dz_diag (c : RcInputLimits) (fd : Int) (i : Nat)
    (v : ChannelCalibration) (s : ChannelLocals) :
    (check_dz c fd true i v s).trace.countP is_defect_diagnostic =
      s.trace.countP is_defect_diagnostic +
        (if v.param_dz > (c.RC_INPUT_MAX_DEADZONE_US : ℚ) then 1 else 0) := by
  unfold check_dz
  split_ifs <;> simp_all [is_defect_diagnostic, List.countP_append]

/-- With reporting on, one pass of the checks writes one per-defect diagnostic for
each check that fired. -/
theorem channel_checks_diag (c : RcInputLimits) (fd : Int) (i : Nat)
    (v : ChannelCalibration) (tr : List Event) :
    (channel_checks c fd true i v tr).trace.countP is_defect_diagnostic =
      tr.countP is_defect_diagnostic + checks_fired c v := by
  unfold channel_checks checks_fired
  simp only [check_dz_diag, check_trim_max_diag, check_trim_min_diag, check_max_diag,
    check_min_diag]
  omega

theorem check_min_summary (c : RcInputLimits) (fd : Int) (rf : Bool) (i : Nat)
    (v : ChannelCalibration) (s : ChannelLocals) :
    (check_min c fd rf i v s).trace.countP is_summary_diagnostic =
      s.trace.countP is_summary_diagnostic := by
  unfold check_min
  split_ifs <;> simp [is_summary_diagnostic, List.countP_append]

theorem check_max_summary (c : RcInputLimits) (fd : Int) (rf : Bool) (i : Nat)
    (v : ChannelCalibration) (s : ChannelLocals) :
    (check_max c fd rf i v s).trace.countP is_summary_diagnostic =
      s.trace.countP is_summary_diagnostic := by
  unfold check_max
  split_ifs <;> simp [is_summary_diagnostic, List.countP_append]

theorem check_trim_min_summary (fd : Int) (rf : Bool) (i : Nat)
    (v : ChannelCalibration) (s : ChannelLocals) :
    (check_trim_min fd rf i v s).trace.countP is_summary_diagnostic =
      s.trace.countP is_summary_diagnostic := by
  unfold check_trim_min
  split_ifs <;> simp [is_summary_diagnostic, List.countP_append]

theorem check_trim_max_summary (fd : Int) (rf : Bool) (i : Nat)
    (v : ChannelCalibration) (s : ChannelLocals) :
    (check_trim_max fd rf i v s).trace.countP is_summary_diagnostic =
      s.trace.countP is_summary_diagnostic := by
  unfold check_trim_max
  split_ifs <;> simp [is_summary_diagnostic, List.countP_append]

theorem check_dz_summary (c : RcInputLimits) (fd : Int) (rf : Bool) (i : Nat)
    (v : ChannelCalibration) (s : ChannelLocals) :
    (check_dz c fd rf i v s).trace.countP is_summary_diagnostic =
      s.trace.countP is_summary_diagnostic := by
  unfold check_dz
  split_ifs <;> simp [is_summary_diagnostic, List.countP_append]

theorem channel_checks_summary (c : RcInputLimits) (fd : Int) (rf : Bool) (i : Nat)
    (v : ChannelCalibration) (tr : List Event) :
    (channel_checks c fd rf i v tr).trace.countP is_summary_diagnostic =
      tr.countP is_summary_diagnostic := by
  unfold channel_checks
  simp only [check_dz_summary, check_trim_max_summary, check_trim_min_summary,
    check_max_summary, check_min_summary]

/-! ## Lemmas on the mapping loop -/

theorem mapping_failures_of_le (c : RcInputLimits) (store : ParamStore) (name : String) :
    mapping_failures_of c store name ≤ 1 := by
  unfold mapping_failures_of
  cases store.int32 name with
  | none => simp
  | some m => simp only []; split_ifs <;> omega

/-- One pass of the mapping loop adds the failures of its name to the counter. -/
theorem map_check_count (c : RcInputLimits) (store : ParamStore) (fd : Int) (rf : Bool)
    (s : MapLoopState) (name : String) (h : s.map_fail_count + 1 < 2 ^ 32) :
    (map_check c store fd rf s name).map_fail_count =
      s.map_fail_count + mapping_failures_of c store name := by
  unfold map_check mapping_failures_of param_find param_get
  cases hv : store.int32 name with
  | none => simp [wrap32]; omega
  | some m =>
    simp only [Option.isSome_some, if_true, hv, Option.getD_some]
    split_ifs <;> simp [wrap32] <;> omega

theorem map_loop_count (c : RcInputLimits) (store : ParamStore) (fd : Int) (rf : Bool)
    (names : List String) :
    ∀ s : MapLoopState, s.map_fail_count + names.length < 2 ^ 32 →
      (map_loop c store fd rf names s).map_fail_count =
        s.map_fail_count + (names.map (mapping_failures_of c store)).sum := by
  induction names with
  | nil => intro s _; simp [map_loop]
  | cons name rest ih =>
    intro s h
    simp only [List.length_cons] at h
    have h1 := map_check_count c store fd rf s name (by omega)
    have hle := mapping_failures_of_le c store name
    have := ih (map_check c store fd rf s name) (by omega)
    simp only [map_loop, List.foldl_cons, List.map_cons, List.sum_cons] at this ⊢
    rw [this, h1]; omega

theorem mapping_failures_eq (c : RcInputLimits) (store : ParamStore) (fd : Int) (rf : Bool)
    (tr : List Event) :
    (map_loop c store fd rf rc_map_mandatory { trace := tr, map_fail_count := 0 }).map_fail_count
      = mapping_failures_of c store "RC_MAP_MODE_SW" := by
  rw [map_loop_count c store fd rf rc_map_mandatory _ (by simp [rc_map_mandatory])]
  simp [rc_map_mandatory]

theorem mapping_failures_eq_of (c : RcInputLimits) (store : ParamStore) :
    mapping_failures c store = mapping_failures_of c store "RC_MAP_MODE_SW" :=
  mapping_failures_eq c store 0 false []

/-- With reporting on, one pass of the mapping loop writes one per-defect
diagnostic for each failure of its name. -/
theorem map_check_diag (c : RcInputLimits) (store : ParamStore) (fd : Int)
    (s : MapLoopState) (name : String) :
    (map_check c store fd true s name).trace.countP is_defect_diagnostic =
      s.trace.countP is_defect_diagnostic + mapping_failures_of c store name := by
  unfold map_check mapping_failures_of param_find param_get
  cases hv : store.int32 name with
  | none => simp [is_defect_diagnostic, List.countP_append]
  | some m =>
    simp only [Option.isSome_some, if_true, hv, Option.getD_some]
    split_ifs <;> simp_all [is_defect_diagnostic, List.countP_append]

theorem map_check_summary (c : RcInputLimits) (store : ParamStore) (fd : Int) (rf : Bool)
    (s : MapLoopState) (name : String) :
    (map_check c store fd rf s name).trace.countP is_summary_diagnostic =
      s.trace.countP is_summary_diagnostic := by
  unfold map_check param_find param_get
  cases hv : store.int32 name with
  | none => cases rf <;> simp [is_summary_diagnostic, List.countP_append]
  | some m =>
    simp only [Option.isSome_some, if_true, hv, Option.getD_some]
    cases rf <;> split_ifs <;> simp_all [is_summary_diagnostic, List.countP_append]

theorem map_loop_diag (c : RcInputLimits) (store : ParamStore) (fd : Int)
    (names : List String) :
    ∀ s : MapLoopState,
      (map_loop c store fd true names s).trace.countP is_defect_diagnostic =
        s.trace.countP is_defect_diagnostic + (names.map (mapping_failures_of c store)).sum := by
  induction names with
  | nil => intro s; simp [map_loop]
  | cons name rest ih =>
    intro s
    have := ih (map_check c store fd true s name)
    simp only [map_loop, List.foldl_cons, List.map_cons, List.sum_cons] at this ⊢
    rw [this, map_check_diag]; omega

theorem map_loop_summary (c : RcInputLimits) (store : ParamStore) (fd : Int) (rf : Bool)
    (names : List String) :
    ∀ s : MapLoopState,
      (map_loop c store fd rf names s).trace.countP is_summary_diagnostic =
        s.trace.countP is_summary_diagnostic := by
  induction names with
  | nil => intro s; simp [map_loop]
  | cons name rest ih =>
    intro s
    have := ih (map_check c store fd rf s name)
    simp only [map_loop, List.foldl_cons] at this ⊢
    rw [this, map_check_summary]

/-! ## Lemmas on the channel loop -/

theorem channel_iter_total (c : RcInputLimits) (store : ParamStore) (fd : Int) (rf : Bool)
    (s : ChanLoopState) (i : Nat) :
    (channel_iter c store fd rf s i).total_fail_count =
      wrap32 (s.total_fail_count + channel_defects c store i) := by
  simp [channel_iter, channel_checks_count, channel_defects_eq]

theorem channel_iter_failed (c : RcInputLimits) (store : ParamStore) (fd : Int) (rf : Bool)
    (s : ChanLoopState) (i : Nat) :
    (channel_iter c store fd rf s i).channels_failed =
      if channel_defects c store i ≠ 0 then wrap32 (s.channels_failed + 1)
      else s.channels_failed := by
  simp [channel_iter, channel_checks_count, channel_defects_eq]

theorem channel_iter_diag (c : RcInputLimits) (store : ParamStore) (fd : Int)
    (s : ChanLoopState) (i : Nat) :
    (channel_iter c store fd true s i).trace.countP is_defect_diagnostic =
      s.trace.countP is_defect_diagnostic + channel_defects c store i := by
  simp [channel_iter, channel_checks_diag, channel_defects_eq]

theorem channel_iter_summary (c : RcInputLimits) (store : ParamStore) (fd : Int) (rf : Bool)
    (s : ChanLoopState) (i : Nat) :
    (channel_iter c store fd rf s i).trace.countP is_summary_diagnostic =
      s.trace.countP is_summary_diagnostic := by
  simp [channel_iter, channel_checks_summary]

/-- The counters of the channel loop do not depend on the descriptor nor on the
reporting flag. -/
theorem channel_fold_counters (c : RcInputLimits) (store : ParamStore) (fd fd2 : Int)
    (rf rf2 : Bool) (l : List Nat) :
    ∀ s s2 : ChanLoopState, s.total_fail_count = s2.total_fail_count →
      s.channels_failed = s2.channels_failed →
      (l.foldl (channel_iter c store fd rf) s).total_fail_count =
        (l.foldl (channel_iter c store fd2 rf2) s2).total_fail_count ∧
      (l.foldl (channel_iter c store fd rf) s).channels_failed =
        (l.foldl (channel_iter c store fd2 rf2) s2).channels_failed := by
  induction l with
  | nil => intro s s2 h1 h2; exact ⟨h1, h2⟩
  | cons i rest ih =>
    intro s s2 h1 h2
    simp only [List.foldl_cons]
    apply ih
    · rw [channel_iter_total, channel_iter_total, h1]
    · rw [channel_iter_failed, channel_iter_failed, h2]

theorem channel_fold_total (c : RcInputLimits) (store : ParamStore) (fd : Int) (rf : Bool)
    (l : List Nat) :
    ∀ s : ChanLoopState, s.total_fail_count + 5 * l.length < 2 ^ 32 →
      (l.foldl (channel_iter c store fd rf) s).total_fail_count =
        s.total_fail_count + (l.map (channel_defects c store)).sum := by
  induction l with
  | nil => intro s _; simp
  | cons i rest ih =>
    intro s h
    simp only [List.length_cons] at h
    have hle := channel_defects_le c store i
    have h1 : (channel_iter c store fd rf s i).total_fail_count =
        s.total_fail_count + channel_defects c store i := by
      rw [channel_iter_total]; unfold wrap32; apply Nat.mod_eq_of_lt; omega
    have := ih (channel_iter c store fd rf s i) (by omega)
    simp only [List.foldl_cons, List.map_cons, List.sum_cons] at this ⊢
    rw [this, h1]; omega

theorem channel_fold_failed (c : RcInputLimits) (store : ParamStore) (fd : Int) (rf : Bool)
    (l : List Nat) :
    ∀ s : ChanLoopState, s.channels_failed + l.length < 2 ^ 32 →
      (l.foldl (channel_iter c store fd rf) s).channels_failed =
        s.channels_failed + l.countP (fun i => decide (channel_defects c store i ≠ 0)) := by
  induction l with
  | nil => intro s _; simp
  | cons i rest ih =>
    intro s h
    simp only [List.length_cons] at h
    have h1 := channel_iter_failed c store fd rf s i
    have hw : wrap32 (s.channels_failed + 1) = s.channels_failed + 1 := by
      unfold wrap32; apply Nat.mod_eq_of_lt; omega
    rw [hw] at h1
    by_cases hd : channel_defects c store i ≠ 0
    · have := ih (channel_iter c store fd rf s i) (by rw [h1, if_pos hd]; omega)
      simp only [List.foldl_cons] at this ⊢
      rw [this, h1, if_pos hd, List.countP_cons_of_pos _ _ (by simpa using hd)]; omega
    · have := ih (channel_iter c store fd rf s i) (by rw [h1, if_neg hd]; omega)
      simp only [List.foldl_cons] at this ⊢
      rw [this, h1, if_neg hd, List.countP_cons_of_neg _ _ (by simpa using hd)]

theorem channel_fold_diag (c : RcInputLimits) (store : ParamStore) (fd : Int) (l : List Nat) :
    ∀ s : ChanLoopState,
      (l.foldl (channel_iter c store fd true) s).trace.countP is_defect_diagnostic =
        s.trace.countP is_defect_diagnostic + (l.map (channel_defects c store)).sum := by
  induction l with
  | nil => intro s; simp
  | cons i rest ih =>
    intro s
    have := ih (channel_iter c store fd true s i)
    simp only [List.foldl_cons, List.map_cons, List.sum_cons] at this ⊢
    rw [this, channel_iter_diag]; omega

theorem channel_fold_summary (c : RcInputLimits) (store : ParamStore) (fd : Int) (rf : Bool)
    (l : List Nat) :
    ∀ s : ChanLoopState,
      (l.foldl (channel_iter c store fd rf) s).trace.countP is_summary_diagnostic =
        s.trace.countP is_summary_diagnostic := by
  induction l with
  | nil => intro s; simp
  | cons i rest ih =>
    intro s
    have := ih (channel_iter c store fd rf s i)
    simp only [List.foldl_cons] at this ⊢
    rw [this, channel_iter_summary]

theorem sum_channel_defects_le (c : RcInputLimits) (store : ParamStore) (l : List Nat) :
    (l.map (channel_defects c store)).sum ≤ 5 * l.length := by
  induction l with
  | nil => simp
  | cons i rest ih =>
    have := channel_defects_le c store i
    simp only [List.map_cons, List.sum_cons, List.length_cons]; omega

/-! ## Lemmas on the routine as a whole -/

theorem toInt32_wrap32_of_lt (n : Nat) (h : n < 2 ^ 31) : toInt32 (wrap32 n) = (n : Int) := by
  have h1 : n % 2 ^ 32 = n := Nat.mod_eq_of_lt (by omega)
  unfold toInt32 wrap32
  rw [h1, h1, if_pos h]

/-- The counters with which the channel loop is left, whatever the trace it started from. -/
theorem channel_loop_total (c : RcInputLimits) (store : ParamStore) (fd : Int) (rf : Bool)
    (tr : List Event) (hN : 5 * c.RC_INPUT_MAX_CHANNELS + 1 < 2 ^ 31) :
    (channel_loop c store fd rf
        { trace := tr, total_fail_count := 0, channels_failed := 0 }).total_fail_count =
      ((List.range c.RC_INPUT_MAX_CHANNELS).map (channel_defects c store)).sum := by
  unfold channel_loop
  rw [channel_fold_total c store fd rf _ _ (by simp only [List.length_range]; omega)]
  simp

theorem channel_loop_failed (c : RcInputLimits) (store : ParamStore) (fd : Int) (rf : Bool)
    (tr : List Event) (hN : 5 * c.RC_INPUT_MAX_CHANNELS + 1 < 2 ^ 31) :
    (channel_loop c store fd rf
        { trace := tr, total_fail_count := 0, channels_failed := 0 }).channels_failed =
      (List.range c.RC_INPUT_MAX_CHANNELS).countP
        (fun i => decide (channel_defects c store i ≠ 0)) := by
  unfold channel_loop
  rw [channel_fold_failed c store fd rf _ _ (by simp only [List.length_range]; omega)]
  simp

/-- The returned value is the mapping-failure counter plus the per-channel counters. -/
theorem ret_eq_sum (c : RcInputLimits) (store : ParamStore) (fd : Int) (rf : Bool)
    (hN : 5 * c.RC_INPUT_MAX_CHANNELS + 1 < 2 ^ 31) :
    (rc_calibration_check c store fd rf).ret =
      ((mapping_failures c store +
        ((List.range c.RC_INPUT_MAX_CHANNELS).map (channel_defects c store)).sum : Nat) : Int) := by
  have hm := mapping_failures_of_le c store "RC_MAP_MODE_SW"
  have hs := sum_channel_defects_le c store (List.range c.RC_INPUT_MAX_CHANNELS)
  simp only [List.length_range] at hs
  unfold rc_calibration_check
  simp only [channel_loop_total c store fd rf _ hN, mapping_failures_eq, mapping_failures_eq_of]
  rw [toInt32_wrap32_of_lt _ (by omega), Nat.add_comm]

/-- The returned value does not depend on the reporting flag. -/
theorem ret_report_independent (c : RcInputLimits) (store : ParamStore) (fd : Int)
    (rf rf2 : Bool) :
    (rc_calibration_check c store fd rf).ret = (rc_calibration_check c store fd rf2).ret := by
  have h := (channel_fold_counters c store fd fd rf rf2 (List.range c.RC_INPUT_MAX_CHANNELS)
    { trace := (map_loop c store fd rf rc_map_mandatory
        { trace := [], map_fail_count := 0 }).trace,
      total_fail_count := 0, channels_failed := 0 }
    { trace := (map_loop c store fd rf2 rc_map_mandatory
        { trace := [], map_fail_count := 0 }).trace,
      total_fail_count := 0, channels_failed := 0 } rfl rfl).1
  unfold rc_calibration_check channel_loop
  simp only [mapping_failures_eq]
  rw [h]

theorem countP_failed_ne_zero_iff (c : RcInputLimits) (store : ParamStore) (n : Nat) :
    (List.range n).countP (fun i => decide (channel_defects c store i ≠ 0)) ≠ 0 ↔
      ∃ i, i < n ∧ channel_defects c store i ≠ 0 := by
  rw [Nat.ne_zero_iff_zero_lt, List.countP_pos_iff]
  constructor
  · rintro ⟨i, hi, hd⟩
    exact ⟨i, List.mem_range.mp hi, by simpa using hd⟩
  · rintro ⟨i, hi, hd⟩
    exact ⟨i, List.mem_range.mpr hi, by simpa using hd⟩

/-- With reporting on, the per-defect diagnostics of a call are as many as the
mapping failures and the per-channel counters together. -/
theorem diag_eq_sum (c : RcInputLimits) (store : ParamStore) (fd : Int) :
    (rc_calibration_check c store fd true).trace.countP is_defect_diagnostic =
      mapping_failures c store +
        ((List.range c.RC_INPUT_MAX_CHANNELS).map (channel_defects c store)).sum := by
  have hmap := map_loop_diag c store fd rc_map_mandatory { trace := [], map_fail_count := 0 }
  have hchan := channel_fold_diag c store fd (List.range c.RC_INPUT_MAX_CHANNELS)
    { trace := (map_loop c store fd true rc_map_mandatory
        { trace := [], map_fail_count := 0 }).trace,
      total_fail_count := 0, channels_failed := 0 }
  have hsum : (rc_map_mandatory.map (mapping_failures_of c store)).sum =
      mapping_failures c store := by
    rw [mapping_failures_eq_of]; simp [rc_map_mandatory]
  rw [hsum] at hmap
  simp only [List.countP_nil, Nat.zero_add] at hmap
  rw [hmap] at hchan
  unfold rc_calibration_check channel_loop
  simp only []
  split_ifs <;>
    simp [List.countP_append, is_defect_diagnostic, hchan]

/-- The summary is written once when the loop counted a failed channel and reporting
is on, and not at all otherwise. -/
theorem summary_count (c : RcInputLimits) (store : ParamStore) (fd : Int) (rf : Bool) :
    (rc_calibration_check c store fd rf).trace.countP is_summary_diagnostic =
      if (channel_loop c store fd rf
          { trace := (map_loop c store fd rf rc_map_mandatory
              { trace := [], map_fail_count := 0 }).trace,
            total_fail_count := 0, channels_failed := 0 }).channels_failed ≠ 0 ∧ rf = true
      then 1 else 0 := by
  have hmap := map_loop_summary c store fd rf rc_map_mandatory
    { trace := [], map_fail_count := 0 }
  have hchan := channel_fold_summary c store fd rf (List.range c.RC_INPUT_MAX_CHANNELS)
    { trace := (map_loop c store fd rf rc_map_mandatory
        { trace := [], map_fail_count := 0 }).trace,
      total_fail_count := 0, channels_failed := 0 }
  rw [hmap] at hchan
  simp only [List.countP_nil] at hchan
  unfold rc_calibration_check
  unfold channel_loop at *
  simp only []
  cases rf <;> split_ifs <;>
    simp_all [List.countP_append, is_summary_diagnostic]

/-! ## Lemmas on the fetched values -/

theorem fetch_channel_min (c : RcInputLimits) (store : ParamStore) (i : Nat) :
    (fetch_channel c store i).param_min = (store.float (channel_param_name i "MIN")).getD 0 := by
  simp [fetch_channel, param_get_find]

theorem fetch_channel_trim (c : RcInputLimits) (store : ParamStore) (i : Nat) :
    (fetch_channel c store i).param_trim = (store.float (channel_param_name i "TRIM")).getD 0 := by
  simp [fetch_channel, param_get_find]

theorem fetch_channel_max (c : RcInputLimits) (store : ParamStore) (i : Nat) :
    (fetch_channel c store i).param_max = (store.float (channel_param_name i "MAX")).getD 0 := by
  simp [fetch_channel, param_get_find]

theorem fetch_channel_rev (c : RcInputLimits) (store : ParamStore) (i : Nat) :
    (fetch_channel c store i).param_rev = (store.float (channel_param_name i "REV")).getD 0 := by
  simp [fetch_channel, param_get_find]

theorem fetch_channel_dz (c : RcInputLimits) (store : ParamStore) (i : Nat) :
    (fetch_channel c store i).param_dz =
      (store.float (channel_param_name i "DZ")).getD ((c.RC_INPUT_MAX_DEADZONE_US : ℚ) * 2) := by
  simp [fetch_channel, param_get_find]

/-- Two stores that agree on the five names of a channel yield the same fetched values. -/
theorem fetch_channel_congr (c : RcInputLimits) (s s2 : ParamStore) (i : Nat)
    (h : ∀ suffix ∈ channel_suffixes,
      s2.float (channel_param_name i suffix) = s.float (channel_param_name i suffix)) :
    fetch_channel c s2 i = fetch_channel c s i := by
  have h1 := h "MIN" (by simp [channel_suffixes])
  have h2 := h "TRIM" (by simp [channel_suffixes])
  have h3 := h "MAX" (by simp [channel_suffixes])
  have h4 := h "REV" (by simp [channel_suffixes])
  have h5 := h "DZ" (by simp [channel_suffixes])
  simp [fetch_channel, param_get_find, h1, h2, h3, h4, h5]

/-- The checks that fire are the violated invariants, the deadzone being held only to
its upper bound. -/
theorem checks_fired_eq_upper (c : RcInputLimits) (v : ChannelCalibration) :
    checks_fired c v = violated_upper_invariants c v := by
  unfold checks_fired violated_upper_invariants
  simp only [gt_iff_lt, ← not_lt]
  split_ifs <;> rfl

theorem sum_range_update (f g : Nat → Nat) (n : Nat) :
    ∀ N : Nat, (∀ i, i < N → i ≠ n → g i = f i) →
      ((List.range N).map g).sum + (if n < N then f n else 0) =
        ((List.range N).map f).sum + (if n < N then g n else 0) := by
  intro N
  induction N with
  | zero => intro _; simp
  | succ N ih =>
    intro h
    have ih2 := ih (fun i hi hne => h i (by omega) hne)
    simp only [List.range_succ, List.map_append, List.sum_append, List.map_cons, List.map_nil,
      List.sum_cons, List.sum_nil, Nat.add_zero]
    by_cases h1 : n < N
    · have h2 : n < N + 1 := by omega
      have h3 := h N (by omega) (by omega)
      rw [if_pos h1] at ih2
      rw [if_pos h2, if_pos h2, h3]
      rw [if_pos h1] at ih2
      omega
    · rw [if_neg h1, if_neg h1] at ih2
      by_cases h4 : n = N
      · subst h4
        rw [if_pos (by omega), if_pos (by omega)]
        omega
      · have h3 := h N (by omega) (by omega)
        rw [if_neg (by omega), if_neg (by omega), h3]
        omega

/-- Changing the parameters of one channel changes the returned value by the change of
that channel's counter. -/
theorem ret_of_channel_update (c : RcInputLimits) (s s2 : ParamStore) (fd : Int) (rf : Bool)
    (n : Nat) (hN : 5 * c.RC_INPUT_MAX_CHANNELS + 1 < 2 ^ 31)
    (hn : n < c.RC_INPUT_MAX_CHANNELS)
    (hmap : ∀ name ∈ rc_map_mandatory, s2.int32 name = s.int32 name)
    (hother : ∀ i, i < c.RC_INPUT_MAX_CHANNELS → i ≠ n → ∀ suffix ∈ channel_suffixes,
      s2.float (channel_param_name i suffix) = s.float (channel_param_name i suffix)) :
    (rc_calibration_check c s2 fd rf).ret + (channel_defects c s n : Int) =
      (rc_calibration_check c s fd rf).ret + (channel_defects c s2 n : Int) := by
  have hm : mapping_failures c s2 = mapping_failures c s := by
    have := hmap "RC_MAP_MODE_SW" (by simp [rc_map_mandatory])
    rw [mapping_failures_eq_of, mapping_failures_eq_of]
    unfold mapping_failures_of
    rw [this]
  have hd : ∀ i, i < c.RC_INPUT_MAX_CHANNELS → i ≠ n →
      channel_defects c s2 i = channel_defects c s i := by
    intro i hi hne
    rw [channel_defects_eq, channel_defects_eq, fetch_channel_congr c s s2 i (hother i hi hne)]
  have hsum := sum_range_update (channel_defects c s) (channel_defects c s2) n
    c.RC_INPUT_MAX_CHANNELS hd
  rw [if_pos hn, if_pos hn] at hsum
  rw [ret_eq_sum c s2 fd rf hN, ret_eq_sum c s fd rf hN, hm]
  push_cast
  have : ((((List.range c.RC_INPUT_MAX_CHANNELS).map (channel_defects c s2)).sum : Nat) : Int)
      + (channel_defects c s n : Int) =
      ((((List.range c.RC_INPUT_MAX_CHANNELS).map (channel_defects c s)).sum : Nat) : Int)
      + (channel_defects c s2 n : Int) := by exact_mod_cast hsum
  linarith

/-- With a positive lowest minimum, a channel whose minimum is absent is counted with
at least one defect. -/
theorem channel_defects_pos_of_absent_min (c : RcInputLimits) (store : ParamStore) (i : Nat)
    (hL : 0 < c.RC_INPUT_LOWEST_MIN_US)
    (hmin : store.float (channel_param_name i "MIN") = none) :
    1 ≤ channel_defects c store i := by
  have h0 : (fetch_channel c store i).param_min < (c.RC_INPUT_LOWEST_MIN_US : ℚ) := by
    rw [fetch_channel_min, hmin]
    simpa using hL
  rw [channel_defects_eq]
  unfold checks_fired
  rw [if_pos h0]
  omega

/-- A check and the invariant it guards count the same when the two values compare. -/
theorem ite_check_eq (x y : ℚ) (h : x < y ∨ y ≤ x) :
    (if x < y then 1 else 0) = (if y ≤ x then 0 else 1) := by
  rcases h with h | h
  · rw [if_pos h, if_neg (not_le.mpr h)]
  · rw [if_neg (not_lt.mpr h), if_pos h]

/-- On values that compare, the checks that fire are the violated invariants, the
deadzone being held only to its upper bound. -/
theorem checks_fired_eq_upper_of_comparable (c : RcInputLimits) (v : ChannelCalibration)
    (h : comparable_values c v) : checks_fired c v = violated_upper_invariants c v := by
  obtain ⟨h1, h2, h3, h4, h5⟩ := h
  unfold checks_fired violated_upper_invariants
  simp only [gt_iff_lt] at *
  rw [ite_check_eq _ _ h1, ite_check_eq _ _ h2, ite_check_eq _ _ h3, ite_check_eq _ _ h4,
    ite_check_eq _ _ h5]

/-- Each check that fires is counted. -/
theorem one_le_checks_fired (c : RcInputLimits) (v : ChannelCalibration)
    (h : v.param_min < (c.RC_INPUT_LOWEST_MIN_US : ℚ) ∨
      v.param_max > (c.RC_INPUT_HIGHEST_MAX_US : ℚ) ∨
      v.param_trim < v.param_min ∨ v.param_trim > v.param_max ∨
      v.param_dz > (c.RC_INPUT_MAX_DEADZONE_US : ℚ)) : 1 ≤ checks_fired c v := by
  unfold checks_fired
  rcases h with h | h | h | h | h <;> rw [if_pos h] <;> omega

/-- With a positive lowest minimum, a channel whose fetched maximum is 0 and whose
fetched values compare has a check that fires. -/
theorem one_le_checks_fired_of_max_zero (c : RcInputLimits) (v : ChannelCalibration)
    (hL : 0 < c.RC_INPUT_LOWEST_MIN_US) (h : v.param_max = 0)
    (hc : comparable_values c v) : 1 ≤ checks_fired c v := by
  have hpos : (0 : ℚ) < (c.RC_INPUT_LOWEST_MIN_US : ℚ) := by exact_mod_cast hL
  obtain ⟨h1, _, h3, _, _⟩ := hc
  apply one_le_checks_fired
  rcases h1 with h1 | h1
  · exact Or.inl h1
  · rcases h3 with h3 | h3
    · exact Or.inr (Or.inr (Or.inl h3))
    · refine Or.inr (Or.inr (Or.inr (Or.inl ?_)))
      rw [h]
      exact lt_of_lt_of_le hpos (le_trans h1 h3)

/-- With a positive lowest minimum, a channel whose fetched trim is 0 and whose
fetched values compare has a check that fires. -/
theorem one_le_checks_fired_of_trim_zero (c : RcInputLimits) (v : ChannelCalibration)
    (hL : 0 < c.RC_INPUT_LOWEST_MIN_US) (h : v.param_trim = 0)
    (hc : comparable_values c v) : 1 ≤ checks_fired c v := by
  have hpos : (0 : ℚ) < (c.RC_INPUT_LOWEST_MIN_US : ℚ) := by exact_mod_cast hL
  obtain ⟨h1, _, _, _, _⟩ := hc
  apply one_le_checks_fired
  rcases h1 with h1 | h1
  · exact Or.inl h1
  · refine Or.inr (Or.inr (Or.inl ?_))
    rw [h]
    exact lt_of_lt_of_le hpos h1

/-! ## The return value -/

/-- C1: for every store and either value of `report_fail`, the value returned by
`rc_calibration_check` is the mapping-failure counter plus the sum, over the channels
`1 .. RC_INPUT_MAX_CHANNELS` (loop indices `0 .. RC_INPUT_MAX_CHANNELS - 1`), of the
per-channel counters, each of which is the number of checks that fired for its
channel, provided the channel count is small enough for the 32-bit counters not to
wrap. -/
theorem C1_return_is_mapping_plus_channel_failures (c : RcInputLimits) (store : ParamStore)
    (mavlink_fd : Int) (report_fail : Bool)
    (hN : 5 * c.RC_INPUT_MAX_CHANNELS + 1 < 2 ^ 31) :
    (rc_calibration_check c store mavlink_fd report_fail).ret =
      (mapping_failures c store : Int) +
        (((List.range c.RC_INPUT_MAX_CHANNELS).map (channel_defects c store)).sum : Nat) ∧
    (∀ i tr, (channel_checks c mavlink_fd report_fail i (fetch_channel c store i) tr).count =
      checks_fired c (fetch_channel c store i)) ∧
    (∀ i, channel_defects c store i = checks_fired c (fetch_channel c store i)) ∧
    (map_loop c store mavlink_fd report_fail rc_map_mandatory
        { trace := [], map_fail_count := 0 }).map_fail_count = mapping_failures c store := by
  refine ⟨?_, fun i tr => channel_checks_count c mavlink_fd report_fail i _ tr,
    fun i => channel_defects_eq c store i, ?_⟩
  · rw [ret_eq_sum c store mavlink_fd report_fail hN]
    push_cast
    rfl
  · rw [mapping_failures_eq, mapping_failures_eq_of]

/-- C1, at the example constants and the store of a sound channel 3, reporting on. -/
theorem C1_return_is_mapping_plus_channel_failures_witness :
    5 * example_limits.RC_INPUT_MAX_CHANNELS + 1 < 2 ^ 31 ∧
    (rc_calibration_check example_limits channel3_store 1 true).ret =
      (mapping_failures example_limits channel3_store : Int) +
        (((List.range example_limits.RC_INPUT_MAX_CHANNELS).map
          (channel_defects example_limits channel3_store)).sum : Nat) :=
  ⟨by decide, (C1_return_is_mapping_plus_channel_failures example_limits channel3_store 1 true
    (by decide)).1⟩

/-! ## The per-channel counter -/

/-- C2, as stated, fails: with `RC3_DZ = -1` and the other values of channel 3 sound,
the deadzone invariant `0 ≤ deadzone ≤ MAX_DEADZONE` is violated (one violated
invariant) and the routine counts no defect for channel 3. -/
theorem C2_counterexample_negative_deadzone :
    negative_dz_store.float (channel_param_name 2 "DZ") = some (-1) ∧
    violated_invariants example_limits (fetch_channel example_limits negative_dz_store 2) = 1 ∧
    channel_defects example_limits negative_dz_store 2 = 0 := by
  refine ⟨by decide, by decide, by decide⟩

/-- C2, amended: for every channel (loop index `i`, channel `i + 1`) and every store,
the per-channel counter is the number of violated invariants among
`LOWEST_MIN ≤ min`, `max ≤ HIGHEST_MAX`, `min ≤ trim`, `trim ≤ max` and
`deadzone ≤ MAX_DEADZONE`, evaluated on the fetched values. -/
theorem C2_channel_defects_count_upper_invariants (c : RcInputLimits) (store : ParamStore)
    (i : Nat) :
    channel_defects c store i = violated_upper_invariants c (fetch_channel c store i) := by
  rw [channel_defects_eq, checks_fired_eq_upper]

/-- C3: a channel whose five parameters are present and satisfy
`LOWEST_MIN ≤ min ≤ trim ≤ max ≤ HIGHEST_MAX` and `0 ≤ deadzone ≤ MAX_DEADZONE` is
counted with zero defects, and its pass of the loop leaves `channels_failed` as it
was, whatever the rest of the store, the descriptor, the flag and the loop state. -/
theorem C3_sound_channel_has_no_defect (c : RcInputLimits) (store : ParamStore) (i : Nat)
    (vmin vtrim vmax vrev vdz : ℚ)
    (hmin : store.float (channel_param_name i "MIN") = some vmin)
    (htrim : store.float (channel_param_name i "TRIM") = some vtrim)
    (hmax : store.float (channel_param_name i "MAX") = some vmax)
    (_hrev : store.float (channel_param_name i "REV") = some vrev)
    (hdz : store.float (channel_param_name i "DZ") = some vdz)
    (h1 : (c.RC_INPUT_LOWEST_MIN_US : ℚ) ≤ vmin) (h2 : vmin ≤ vtrim) (h3 : vtrim ≤ vmax)
    (h4 : vmax ≤ (c.RC_INPUT_HIGHEST_MAX_US : ℚ))
    (_h5 : 0 ≤ vdz) (h6 : vdz ≤ (c.RC_INPUT_MAX_DEADZONE_US : ℚ)) :
    channel_defects c store i = 0 ∧
    ∀ (mavlink_fd : Int) (report_fail : Bool) (s : ChanLoopState),
      (channel_checks c mavlink_fd report_fail i (fetch_channel c store i) s.trace).count = 0 ∧
      (channel_iter c store mavlink_fd report_fail s i).channels_failed = s.channels_failed := by
  have hz : channel_defects c store i = 0 := by
    rw [channel_defects_eq, checks_fired_eq_upper]
    unfold violated_upper_invariants
    rw [fetch_channel_min, fetch_channel_trim, fetch_channel_max, fetch_channel_dz,
      hmin, htrim, hmax, hdz]
    simp only [Option.getD_some]
    rw [if_pos h1, if_pos h4, if_pos h2, if_pos h3, if_pos h6]
  refine ⟨hz, fun fd rf s => ⟨?_, ?_⟩⟩
  · rw [channel_checks_count, ← channel_defects_eq]; exact hz
  · rw [channel_iter_failed, hz]; simp

/-- C3, at channel 3 of `channel3_store` (loop index 2) with the example constants. -/
theorem C3_sound_channel_has_no_defect_witness :
    channel_defects example_limits channel3_store 2 = 0 ∧
    ∀ (mavlink_fd : Int) (report_fail : Bool) (s : ChanLoopState),
      (channel_checks example_limits mavlink_fd report_fail 2
        (fetch_channel example_limits channel3_store 2) s.trace).count = 0 ∧
      (channel_iter example_limits channel3_store mavlink_fd report_fail s 2).channels_failed
        = s.channels_failed :=
  C3_sound_channel_has_no_defect example_limits channel3_store 2 1000 1500 2000 1 10
    (by decide) (by decide) (by decide) (by decide) (by decide)
    (by decide) (by decide) (by decide) (by decide) (by decide) (by decide)

/-! ## The mapping phase -/

/-- C4: the mapping loop, run over any list of names from a zero counter, leaves in
`map_fail_count` the sum over the whole list of the failures of each name, a name
failing when it is absent, when its index exceeds `RC_INPUT_MAX_CHANNELS`, and when
its index is 0; no name is skipped after an earlier failure. -/
theorem C4_mapping_failures_are_summed (c : RcInputLimits) (store : ParamStore)
    (mavlink_fd : Int) (report_fail : Bool) (names : List String) (tr : List Event)
    (hlen : names.length < 2 ^ 32) :
    (map_loop c store mavlink_fd report_fail names
        { trace := tr, map_fail_count := 0 }).map_fail_count =
      (names.map (mapping_failures_of c store)).sum ∧
    (∀ name, store.int32 name = none → mapping_failures_of c store name = 1) ∧
    (∀ name mapping, store.int32 name = some mapping →
      mapping > (c.RC_INPUT_MAX_CHANNELS : Int) → mapping_failures_of c store name = 1) ∧
    (∀ name, store.int32 name = some 0 → mapping_failures_of c store name = 1) := by
  refine ⟨?_, ?_, ?_, ?_⟩
  · rw [map_loop_count c store mavlink_fd report_fail names _ (by simpa using hlen)]
    simp
  · intro name h
    simp [mapping_failures_of, h]
  · intro name m h hgt
    have : ¬ m = 0 := by omega
    simp [mapping_failures_of, h, hgt, this]
  · intro name h
    have : ¬ (0 : Int) > (c.RC_INPUT_MAX_CHANNELS : Int) := by omega
    simp [mapping_failures_of, h]

/-- C4, at the list of the source: `RC_MAP_MODE_SW` stored as 0 gives a
mapping-failure count of 1. -/
theorem C4_mapping_failures_are_summed_witness :
    rc_map_mandatory.length < 2 ^ 32 ∧ mapping_failures example_limits unmapped_store = 1 :=
  ⟨by decide,
    (C4_mapping_failures_are_summed example_limits unmapped_store 0 false rc_map_mandatory []
      (by decide)).1.trans (by decide)⟩

/-- C5, as stated, fails: with `RC_MAP_MODE_SW = -1` the mapping-failure count is zero
although the stored index is not in `[1, RC_INPUT_MAX_CHANNELS]`. -/
theorem C5_counterexample_negative_mapping :
    mapping_failures example_limits negative_mapping_store = 0 ∧
    negative_mapping_store.int32 "RC_MAP_MODE_SW" = some (-1) ∧
    ¬ (∀ name ∈ rc_map_mandatory, ∃ mapping : Int,
        negative_mapping_store.int32 name = some mapping ∧
        1 ≤ mapping ∧ mapping ≤ (example_limits.RC_INPUT_MAX_CHANNELS : Int)) := by
  refine ⟨by decide, by decide, ?_⟩
  intro h
  obtain ⟨m, hm, h1, _⟩ := h "RC_MAP_MODE_SW" (by simp [rc_map_mandatory])
  have h2 : negative_mapping_store.int32 "RC_MAP_MODE_SW" = some (-1) := by decide
  rw [h2] at hm
  injection hm with hm
  omega

/-- C5, amended: the mapping-failure count is zero if and only if every mandatory
mapping name exists in the store with a stored index that is not 0 and is at most
`RC_INPUT_MAX_CHANNELS`. -/
theorem C5_no_mapping_failure_iff (c : RcInputLimits) (store : ParamStore) :
    mapping_failures c store = 0 ↔
      ∀ name ∈ rc_map_mandatory, ∃ mapping : Int,
        store.int32 name = some mapping ∧ mapping ≠ 0 ∧
        mapping ≤ (c.RC_INPUT_MAX_CHANNELS : Int) := by
  rw [mapping_failures_eq_of]
  simp only [rc_map_mandatory, List.mem_singleton, forall_eq]
  unfold mapping_failures_of
  cases h : store.int32 "RC_MAP_MODE_SW" with
  | none => simp
  | some m =>
    simp only [Option.some.injEq, exists_eq_left']
    constructor
    · intro h0
      refine ⟨?_, ?_⟩
      · intro hm; simp [hm] at h0
      · by_contra hgt
        have : m > (c.RC_INPUT_MAX_CHANNELS : Int) := by omega
        simp [this] at h0
    · rintro ⟨hne, hle⟩
      have : ¬ m > (c.RC_INPUT_MAX_CHANNELS : Int) := by omega
      simp [this, hne]

/-! ## Absent parameters -/

/-- C6: with `LOWEST_MIN > 0`, a channel whose `MIN`, `TRIM` and `MAX` parameters are
absent from the store is counted with at least one defect, whatever its `REV` and
`DZ` parameters are. -/
theorem C6_absent_min_trim_max_is_a_defect (c : RcInputLimits) (store : ParamStore) (i : Nat)
    (hL : 0 < c.RC_INPUT_LOWEST_MIN_US)
    (hmin : store.float (channel_param_name i "MIN") = none)
    (_htrim : store.float (channel_param_name i "TRIM") = none)
    (_hmax : store.float (channel_param_name i "MAX") = none) :
    1 ≤ channel_defects c store i := by
  have h0 : (fetch_channel c store i).param_min < (c.RC_INPUT_LOWEST_MIN_US : ℚ) := by
    rw [fetch_channel_min, hmin]
    simpa using hL
  rw [channel_defects_eq]
  unfold checks_fired
  rw [if_pos h0]
  omega

/-- C6, at channel 1 of a store that holds only `RC1_REV` and `RC1_DZ`. -/
theorem C6_absent_min_trim_max_is_a_defect_witness :
    0 < example_limits.RC_INPUT_LOWEST_MIN_US ∧
    rev_dz_only_store.float (channel_param_name 0 "REV") = some 1 ∧
    rev_dz_only_store.float (channel_param_name 0 "DZ") = some 10 ∧
    1 ≤ channel_defects example_limits rev_dz_only_store 0 :=
  ⟨by decide, by decide, by decide,
    C6_absent_min_trim_max_is_a_defect example_limits rev_dz_only_store 0
      (by decide) (by decide) (by decide) (by decide)⟩

/-- C7, as stated, fails: with `0 < LOWEST_MIN ≤ HIGHEST_MAX` and `MAX_DEADZONE > 0`,
on the empty store the value substituted for the absent maximum of channel 1 does not
make the check `max > HIGHEST_MAX` fire, and the value substituted for the absent trim
makes neither `trim < min` nor `trim > max` fire. -/
theorem C7_counterexample_max_and_trim_defaults :
    0 < example_limits.RC_INPUT_LOWEST_MIN_US ∧
    example_limits.RC_INPUT_LOWEST_MIN_US ≤ example_limits.RC_INPUT_HIGHEST_MAX_US ∧
    0 < example_limits.RC_INPUT_MAX_DEADZONE_US ∧
    empty_store.float (channel_param_name 0 "MAX") = none ∧
    empty_store.float (channel_param_name 0 "TRIM") = none ∧
    ¬ ((fetch_channel example_limits empty_store 0).param_max >
        (example_limits.RC_INPUT_HIGHEST_MAX_US : ℚ)) ∧
    ¬ ((fetch_channel example_limits empty_store 0).param_trim <
          (fetch_channel example_limits empty_store 0).param_min ∨
        (fetch_channel example_limits empty_store 0).param_trim >
          (fetch_channel example_limits empty_store 0).param_max) := by
  refine ⟨by decide, by decide, by decide, by decide, by decide, by decide, by decide⟩

/-- C7, amended: with `LOWEST_MIN > 0` and `MAX_DEADZONE > 0`, for every channel and
every state of the other parameters, an absent minimum is replaced by a value that
makes the minimum check fire and an absent deadzone by a value that makes the deadzone
check fire, so that the channel is counted with at least one defect; an absent maximum
is replaced by a value that never makes the check `max > HIGHEST_MAX` fire; an absent
trim is replaced by a value that makes a trim check fire exactly when the fetched
minimum is positive or the fetched maximum negative; and, when the values fetched for
the channel are exact numbers (`comparable_values`), a channel with an absent maximum
or an absent trim is still counted with at least one defect. -/
theorem C7_substituted_values (c : RcInputLimits) (store : ParamStore) (i : Nat)
    (hL : 0 < c.RC_INPUT_LOWEST_MIN_US) (hD : 0 < c.RC_INPUT_MAX_DEADZONE_US) :
    (store.float (channel_param_name i "MIN") = none →
      (fetch_channel c store i).param_min < (c.RC_INPUT_LOWEST_MIN_US : ℚ) ∧
      1 ≤ channel_defects c store i) ∧
    (store.float (channel_param_name i "DZ") = none →
      (fetch_channel c store i).param_dz > (c.RC_INPUT_MAX_DEADZONE_US : ℚ) ∧
      1 ≤ channel_defects c store i) ∧
    (store.float (channel_param_name i "MAX") = none →
      ¬ ((fetch_channel c store i).param_max > (c.RC_INPUT_HIGHEST_MAX_US : ℚ)) ∧
      (comparable_values c (fetch_channel c store i) → 1 ≤ channel_defects c store i)) ∧
    (store.float (channel_param_name i "TRIM") = none →
      (((fetch_channel c store i).param_trim < (fetch_channel c store i).param_min ∨
        (fetch_channel c store i).param_trim > (fetch_channel c store i).param_max) ↔
       (0 < (fetch_channel c store i).param_min ∨ (fetch_channel c store i).param_max < 0)) ∧
      (comparable_values c (fetch_channel c store i) → 1 ≤ channel_defects c store i)) := by
  refine ⟨?_, ?_, ?_, ?_⟩
  · intro h
    have h0 : (fetch_channel c store i).param_min < (c.RC_INPUT_LOWEST_MIN_US : ℚ) := by
      rw [fetch_channel_min, h]
      simpa using hL
    refine ⟨h0, ?_⟩
    rw [channel_defects_eq]
    exact one_le_checks_fired c _ (Or.inl h0)
  · intro h
    have hpos : (0 : ℚ) < (c.RC_INPUT_MAX_DEADZONE_US : ℚ) := by exact_mod_cast hD
    have h0 : (fetch_channel c store i).param_dz > (c.RC_INPUT_MAX_DEADZONE_US : ℚ) := by
      rw [fetch_channel_dz, h]
      simp only [Option.getD_none, gt_iff_lt]
      linarith
    refine ⟨h0, ?_⟩
    rw [channel_defects_eq]
    exact one_le_checks_fired c _ (Or.inr (Or.inr (Or.inr (Or.inr h0))))
  · intro h
    have h0 : (fetch_channel c store i).param_max = 0 := by
      rw [fetch_channel_max, h]; rfl
    refine ⟨?_, ?_⟩
    · rw [h0]; simp
    · intro hc
      rw [channel_defects_eq]
      exact one_le_checks_fired_of_max_zero c _ hL h0 hc
  · intro h
    have h0 : (fetch_channel c store i).param_trim = 0 := by
      rw [fetch_channel_trim, h]; rfl
    refine ⟨?_, ?_⟩
    · rw [h0]
    · intro hc
      rw [channel_defects_eq]
      exact one_le_checks_fired_of_trim_zero c _ hL h0 hc

/-- C7 amended, with the example constants: on the empty store the absent minimum of
channel 1 makes the minimum check fire; in `no_max_store` channel 3, whose maximum is
absent and whose other values are sound numbers, is counted with a defect; and so is
channel 3 of `no_trim_store`, whose trim is absent. -/
theorem C7_substituted_values_witness :
    0 < example_limits.RC_INPUT_LOWEST_MIN_US ∧ 0 < example_limits.RC_INPUT_MAX_DEADZONE_US ∧
    (empty_store.float (channel_param_name 0 "MIN") = none ∧
      (fetch_channel example_limits empty_store 0).param_min <
        (example_limits.RC_INPUT_LOWEST_MIN_US : ℚ) ∧
      1 ≤ channel_defects example_limits empty_store 0) ∧
    (no_max_store.float (channel_param_name 2 "MAX") = none ∧
      comparable_values example_limits (fetch_channel example_limits no_max_store 2) ∧
      1 ≤ channel_defects example_limits no_max_store 2) ∧
    (no_trim_store.float (channel_param_name 2 "TRIM") = none ∧
      comparable_values example_limits (fetch_channel example_limits no_trim_store 2) ∧
      1 ≤ channel_defects example_limits no_trim_store 2) :=
  ⟨by decide, by decide,
    ⟨by decide,
      (C7_substituted_values example_limits empty_store 0 (by decide) (by decide)).1
        (by decide)⟩,
    ⟨by decide, by decide,
      ((C7_substituted_values example_limits no_max_store 2 (by decide) (by decide)).2.2.1
        (by decide)).2 (by decide)⟩,
    ⟨by decide, by decide,
      ((C7_substituted_values example_limits no_trim_store 2 (by decide) (by decide)).2.2.2
        (by decide)).2 (by decide)⟩⟩

/-! ## Perturbing one channel -/

/-- C8, as stated, fails: from the sound channel 3 of `channel3_store`, setting
`RC3_DZ` to `-1` violates the invariant `0 ≤ deadzone ≤ MAX_DEADZONE` and no other,
leaves every other parameter as it was, and the returned value is not one greater: it
is unchanged. -/
theorem C8_counterexample_negative_deadzone :
    violated_invariants example_limits (fetch_channel example_limits channel3_store 2) = 0 ∧
    violated_invariants example_limits (fetch_channel example_limits negative_dz_store 2) = 1 ∧
    (fetch_channel example_limits negative_dz_store 2).param_dz < 0 ∧
    (∀ name, negative_dz_store.int32 name = channel3_store.int32 name) ∧
    (∀ name, name ≠ "RC3_DZ" → negative_dz_store.float name = channel3_store.float name) ∧
    ∀ (mavlink_fd : Int) (report_fail : Bool),
      (rc_calibration_check example_limits negative_dz_store mavlink_fd report_fail).ret =
        (rc_calibration_check example_limits channel3_store mavlink_fd report_fail).ret := by
  refine ⟨by decide, by decide, by decide, fun _ => rfl, ?_, ?_⟩
  · intro name hne
    simp [negative_dz_store, set_float, hne]
  · intro fd rf
    have h := ret_of_channel_update example_limits channel3_store negative_dz_store fd rf 2
      (by decide) (by decide) (fun _ _ => rfl) (by decide)
    have h1 : channel_defects example_limits channel3_store 2 = 0 := by decide
    have h2 : channel_defects example_limits negative_dz_store 2 = 0 := by decide
    rw [h1, h2] at h
    simpa using h

/-- C8, amended: let two stores agree on the mandatory mappings and on the parameters
of every channel but one, let that channel satisfy `LOWEST_MIN ≤ min`,
`max ≤ HIGHEST_MAX`, `min ≤ trim`, `trim ≤ max` and `deadzone ≤ MAX_DEADZONE` in the
first store, and in the second store let its fetched values be exact numbers
(`comparable_values`) that violate exactly one of these five.  Then the value returned
on the second store is exactly one greater, the channel is counted with no defect in
the first store and with one in the second, and its pass of the loop increments
`channels_failed` in the second (the channel count being small enough for the 32-bit
counters not to wrap). -/
theorem C8_single_violation_adds_one (c : RcInputLimits) (s s2 : ParamStore)
    (mavlink_fd : Int) (report_fail : Bool) (n : Nat)
    (hN : 5 * c.RC_INPUT_MAX_CHANNELS + 1 < 2 ^ 31)
    (hn : n < c.RC_INPUT_MAX_CHANNELS)
    (hmap : ∀ name ∈ rc_map_mandatory, s2.int32 name = s.int32 name)
    (hother : ∀ i, i < c.RC_INPUT_MAX_CHANNELS → i ≠ n → ∀ suffix ∈ channel_suffixes,
      s2.float (channel_param_name i suffix) = s.float (channel_param_name i suffix))
    (hsound : violated_upper_invariants c (fetch_channel c s n) = 0)
    (hnum : comparable_values c (fetch_channel c s2 n))
    (hone : violated_upper_invariants c (fetch_channel c s2 n) = 1) :
    (rc_calibration_check c s2 mavlink_fd report_fail).ret =
      (rc_calibration_check c s mavlink_fd report_fail).ret + 1 ∧
    channel_defects c s n = 0 ∧ channel_defects c s2 n = 1 ∧
    ∀ st : ChanLoopState,
      (channel_iter c s2 mavlink_fd report_fail st n).channels_failed =
        wrap32 (st.channels_failed + 1) ∧
      (channel_iter c s mavlink_fd report_fail st n).channels_failed = st.channels_failed := by
  have h1 : channel_defects c s n = 0 := by
    have hle : checks_fired c (fetch_channel c s n) ≤
        violated_upper_invariants c (fetch_channel c s n) :=
      le_of_eq (checks_fired_eq_upper c _)
    rw [channel_defects_eq]
    omega
  have h2 : channel_defects c s2 n = 1 := by
    rw [channel_defects_eq, checks_fired_eq_upper_of_comparable c _ hnum, hone]
  have h := ret_of_channel_update c s s2 mavlink_fd report_fail n hN hn hmap hother
  rw [h1, h2] at h
  refine ⟨by simpa using h, h1, h2, fun st => ⟨?_, ?_⟩⟩
  · rw [channel_iter_failed, h2]; simp
  · rw [channel_iter_failed, h1]; simp

/-- C8 amended, at the example of the specification: channel 3 (loop index 2) with
`min = 850` below `LOWEST_MIN = 900` and otherwise sound values adds exactly 1 to the
returned value and is marked failed. -/
theorem C8_single_violation_adds_one_witness :
    low_min_store.float (channel_param_name 2 "MIN") = some 850 ∧
    comparable_values example_limits (fetch_channel example_limits low_min_store 2) ∧
    (rc_calibration_check example_limits low_min_store 1 true).ret =
      (rc_calibration_check example_limits channel3_store 1 true).ret + 1 ∧
    channel_defects example_limits channel3_store 2 = 0 ∧
    channel_defects example_limits low_min_store 2 = 1 ∧
    ∀ st : ChanLoopState,
      (channel_iter example_limits low_min_store 1 true st 2).channels_failed =
        wrap32 (st.channels_failed + 1) ∧
      (channel_iter example_limits channel3_store 1 true st 2).channels_failed =
        st.channels_failed :=
  ⟨by decide, by decide,
    C8_single_violation_adds_one example_limits channel3_store low_min_store 1 true 2
      (by decide) (by decide) (fun _ _ => rfl) (by decide) (by decide) (by decide)
      (by decide)⟩

/-! ## Reporting -/

/-- C9: for every store, the call with `report_fail = false` returns the same value
as the call with `report_fail = true`. -/
theorem C9_report_flag_does_not_change_result (c : RcInputLimits) (store : ParamStore)
    (mavlink_fd : Int) :
    (rc_calibration_check c store mavlink_fd false).ret =
      (rc_calibration_check c store mavlink_fd true).ret :=
  ret_report_independent c store mavlink_fd false true

/-- C10: for every store, the call with `report_fail = true` writes as many per-defect
diagnostics (`mavlink_log_critical`) as the value it returns, writes exactly one
summary (`mavlink_and_console_log_critical`) when some channel is counted with a
defect, and writes no summary otherwise, in particular when only mappings failed (the
channel count being small enough for the 32-bit counters not to wrap). -/
theorem C10_diagnostics_match_the_count (c : RcInputLimits) (store : ParamStore)
    (mavlink_fd : Int) (hN : 5 * c.RC_INPUT_MAX_CHANNELS + 1 < 2 ^ 31) :
    (((rc_calibration_check c store mavlink_fd true).trace.countP is_defect_diagnostic : Nat)
        : Int) = (rc_calibration_check c store mavlink_fd true).ret ∧
    ((∃ i, i < c.RC_INPUT_MAX_CHANNELS ∧ channel_defects c store i ≠ 0) →
      (rc_calibration_check c store mavlink_fd true).trace.countP is_summary_diagnostic = 1) ∧
    ((¬ ∃ i, i < c.RC_INPUT_MAX_CHANNELS ∧ channel_defects c store i ≠ 0) →
      (rc_calibration_check c store mavlink_fd true).trace.countP is_summary_diagnostic = 0) := by
  have hs := summary_count c store mavlink_fd true
  rw [channel_loop_failed c store mavlink_fd true _ hN] at hs
  refine ⟨?_, ?_, ?_⟩
  · rw [diag_eq_sum, ret_eq_sum c store mavlink_fd true hN]
  · intro h
    rw [hs, if_pos ⟨(countP_failed_ne_zero_iff c store _).mpr h, rfl⟩]
  · intro h
    rw [hs, if_neg]
    rintro ⟨h1, _⟩
    exact h ((countP_failed_ne_zero_iff c store _).mp h1)

/-- C10, at `channel3_store` with the example constants: the per-defect diagnostics
are as many as the returned value, and, channel 1 being absent from the store hence
counted with a defect, the summary is written exactly once. -/
theorem C10_diagnostics_match_the_count_witness :
    5 * example_limits.RC_INPUT_MAX_CHANNELS + 1 < 2 ^ 31 ∧
    (((rc_calibration_check example_limits channel3_store 1 true).trace.countP
        is_defect_diagnostic : Nat) : Int) =
      (rc_calibration_check example_limits channel3_store 1 true).ret ∧
    (rc_calibration_check example_limits channel3_store 1 true).trace.countP
      is_summary_diagnostic = 1 :=
  ⟨by decide,
    (C10_diagnostics_match_the_count example_limits channel3_store 1 (by decide)).1,
    (C10_diagnostics_match_the_count example_limits channel3_store 1 (by decide)).2.1
      ⟨0, by decide, by
        have h := channel_defects_pos_of_absent_min example_limits channel3_store 0
          (by decide) (by decide)
        omega⟩⟩
/-! ## Lemmas on the shape of the trace -/

/-- A guarded diagnostic followed by its pacing delay keeps any property that holds of
the pacing delay and, when reporting is on, of the diagnostics. -/
theorem step_all (P : Event → Prop) (tr : List Event) (fd : Int) (rf : Bool) (msg : String)
    (hlog : rf = true → ∀ m, P (Event.mavlink_log_critical fd m))
    (hus : P (Event.usleep 100000)) (h : ∀ e ∈ tr, P e) :
    ∀ e ∈ (if rf = true then tr ++ [Event.mavlink_log_critical fd msg] else tr) ++
      [Event.usleep 100000], P e := by
  intro e he
  rw [List.mem_append, List.mem_singleton] at he
  rcases he with he | he
  · by_cases hr : rf = true
    · rw [if_pos hr, List.mem_append, List.mem_singleton] at he
      rcases he with he | he
      · exact h e he
      · rw [he]; exact hlog hr msg
    · rw [if_neg hr] at he
      exact h e he
  · rw [he]; exact hus

theorem check_min_all (P : Event → Prop) (c : RcInputLimits) (fd : Int) (rf : Bool) (i : Nat)
    (v : ChannelCalibration) (s : ChannelLocals)
    (hlog : rf = true → ∀ m, P (Event.mavlink_log_critical fd m))
    (hus : P (Event.usleep 100000)) (h : ∀ e ∈ s.trace, P e) :
    ∀ e ∈ (check_min c fd rf i v s).trace, P e := by
  unfold check_min
  by_cases h1 : v.param_min < (c.RC_INPUT_LOWEST_MIN_US : ℚ)
  · rw [if_pos h1]; exact step_all P s.trace fd rf _ hlog hus h
  · rw [if_neg h1]; exact h

theorem check_max_all (P : Event → Prop) (c : RcInputLimits) (fd : Int) (rf : Bool) (i : Nat)
    (v : ChannelCalibration) (s : ChannelLocals)
    (hlog : rf = true → ∀ m, P (Event.mavlink_log_critical fd m))
    (hus : P (Event.usleep 100000)) (h : ∀ e ∈ s.trace, P e) :
    ∀ e ∈ (check_max c fd rf i v s).trace, P e := by
  unfold check_max
  by_cases h1 : v.param_max > (c.RC_INPUT_HIGHEST_MAX_US : ℚ)
  · rw [if_pos h1]; exact step_all P s.trace fd rf _ hlog hus h
  · rw [if_neg h1]; exact h

theorem check_trim_min_all (P : Event → Prop) (fd : Int) (rf : Bool) (i : Nat)
    (v : ChannelCalibration) (s : ChannelLocals)
    (hlog : rf = true → ∀ m, P (Event.mavlink_log_critical fd m))
    (hus : P (Event.usleep 100000)) (h : ∀ e ∈ s.trace, P e) :
    ∀ e ∈ (check_trim_min fd rf i v s).trace, P e := by
  unfold check_trim_min
  by_cases h1 : v.param_trim < v.param_min
  · rw [if_pos h1]; exact step_all P s.trace fd rf _ hlog hus h
  · rw [if_neg h1]; exact h

theorem check_trim_max_all (P : Event → Prop) (fd : Int) (rf : Bool) (i : Nat)
    (v : ChannelCalibration) (s : ChannelLocals)
    (hlog : rf = true → ∀ m, P (Event.mavlink_log_critical fd m))
    (hus : P (Event.usleep 100000)) (h : ∀ e ∈ s.trace, P e) :
    ∀ e ∈ (check_trim_max fd rf i v s).trace, P e := by
  unfold check_trim_max
  by_cases h1 : v.param_trim > v.param_max
  · rw [if_pos h1]; exact step_all P s.trace fd rf _ hlog hus h
  · rw [if_neg h1]; exact h

theorem check_dz_all (P : Event → Prop) (c : RcInputLimits) (fd : Int) (rf : Bool) (i : Nat)
    (v : ChannelCalibration) (s : ChannelLocals)
    (hlog : rf = true → ∀ m, P (Event.mavlink_log_critical fd m))
    (hus : P (Event.usleep 100000)) (h : ∀ e ∈ s.trace, P e) :
    ∀ e ∈ (check_dz c fd rf i v s).trace, P e := by
  unfold check_dz
  by_cases h1 : v.param_dz > (c.RC_INPUT_MAX_DEADZONE_US : ℚ)
  · rw [if_pos h1]; exact step_all P s.trace fd rf _ hlog hus h
  · rw [if_neg h1]; exact h

theorem channel_checks_all (P : Event → Prop) (c : RcInputLimits) (fd : Int) (rf : Bool)
    (i : Nat) (v : ChannelCalibration) (tr : List Event)
    (hlog : rf = true → ∀ m, P (Event.mavlink_log_critical fd m))
    (hus : P (Event.usleep 100000)) (h : ∀ e ∈ tr, P e) :
    ∀ e ∈ (channel_checks c fd rf i v tr).trace, P e := by
  unfold channel_checks
  exact check_dz_all P c fd rf i v _ hlog hus
    (check_trim_max_all P fd rf i v _ hlog hus
      (check_trim_min_all P fd rf i v _ hlog hus
        (check_max_all P c fd rf i v _ hlog hus
          (check_min_all P c fd rf i v _ hlog hus h))))

theorem channel_fold_all (P : Event → Prop) (c : RcInputLimits) (store : ParamStore) (fd : Int)
    (rf : Bool) (hlog : rf = true → ∀ m, P (Event.mavlink_log_critical fd m))
    (hus : P (Event.usleep 100000)) (l : List Nat) :
    ∀ s : ChanLoopState, (∀ e ∈ s.trace, P e) →
      ∀ e ∈ (l.foldl (channel_iter c store fd rf) s).trace, P e := by
  induction l with
  | nil => intro s h; exact h
  | cons i rest ih =>
    intro s h
    rw [List.foldl_cons]
    apply ih
    unfold channel_iter
    exact channel_checks_all P c fd rf i _ s.trace hlog hus h

theorem map_check_all (P : Event → Prop) (c : RcInputLimits) (store : ParamStore) (fd : Int)
    (rf : Bool) (s : MapLoopState) (name : String)
    (hlog : rf = true → ∀ m, P (Event.mavlink_log_critical fd m))
    (hus : P (Event.usleep 100000)) (h : ∀ e ∈ s.trace, P e) :
    ∀ e ∈ (map_check c store fd rf s name).trace, P e := by
  unfold map_check param_find param_get
  cases hv : store.int32 name with
  | none =>
    simp only [Option.isSome_none, Bool.false_eq_true, if_false]
    exact step_all P s.trace fd rf _ hlog hus h
  | some m =>
    simp only [Option.isSome_some, if_true, hv, Option.getD_some]
    by_cases h1 : m > (c.RC_INPUT_MAX_CHANNELS : Int)
    · by_cases h2 : m = 0
      · rw [if_pos h1, if_pos h2]
        exact step_all P _ fd rf _ hlog hus (step_all P s.trace fd rf _ hlog hus h)
      · rw [if_pos h1, if_neg h2]
        exact step_all P s.trace fd rf _ hlog hus h
    · by_cases h2 : m = 0
      · rw [if_neg h1, if_pos h2]
        exact step_all P s.trace fd rf _ hlog hus h
      · rw [if_neg h1, if_neg h2]
        exact h

theorem map_loop_all (P : Event → Prop) (c : RcInputLimits) (store : ParamStore) (fd : Int)
    (rf : Bool) (hlog : rf = true → ∀ m, P (Event.mavlink_log_critical fd m))
    (hus : P (Event.usleep 100000)) (names : List String) :
    ∀ s : MapLoopState, (∀ e ∈ s.trace, P e) →
      ∀ e ∈ (map_loop c store fd rf names s).trace, P e := by
  induction names with
  | nil => intro s h; exact h
  | cons name rest ih =>
    intro s h
    unfold map_loop
    rw [List.foldl_cons]
    exact ih _ (map_check_all P c store fd rf s name hlog hus h)

/-- Whatever holds of the pacing delay and, when reporting is on, of the per-defect
diagnostics, holds of every event the two loops leave in the trace. -/
theorem final_loop_state_all (P : Event → Prop) (c : RcInputLimits) (store : ParamStore)
    (fd : Int) (rf : Bool) (hlog : rf = true → ∀ m, P (Event.mavlink_log_critical fd m))
    (hus : P (Event.usleep 100000)) :
    ∀ e ∈ (final_loop_state c store fd rf).trace, P e := by
  unfold final_loop_state channel_loop
  apply channel_fold_all P c store fd rf hlog hus
  apply map_loop_all P c store fd rf hlog hus
  intro e he
  simp at he

/-- The trace of a call: what the loops left, then, when a channel failed, the long
delay, the summary if reporting is on, and a last pacing delay. -/
theorem trace_eq (c : RcInputLimits) (store : ParamStore) (fd : Int) (rf : Bool) :
    (rc_calibration_check c store fd rf).trace =
      if (final_loop_state c store fd rf).channels_failed ≠ 0 then
        ((final_loop_state c store fd rf).trace ++ [Event.sleep 2] ++
          (if rf = true then
            [Event.mavlink_and_console_log_critical fd
              (summary_text (final_loop_state c store fd rf).total_fail_count
                (final_loop_state c store fd rf).channels_failed)]
          else [])) ++ [Event.usleep 100000]
      else (final_loop_state c store fd rf).trace := by
  unfold rc_calibration_check final_loop_state
  simp only []
  split_ifs <;> simp

theorem final_loop_state_total (c : RcInputLimits) (store : ParamStore) (fd : Int) (rf : Bool)
    (hN : 5 * c.RC_INPUT_MAX_CHANNELS + 1 < 2 ^ 31) :
    (final_loop_state c store fd rf).total_fail_count = total_channel_defects c store :=
  channel_loop_total c store fd rf _ hN

theorem final_loop_state_failed (c : RcInputLimits) (store : ParamStore) (fd : Int) (rf : Bool)
    (hN : 5 * c.RC_INPUT_MAX_CHANNELS + 1 < 2 ^ 31) :
    (final_loop_state c store fd rf).channels_failed = failed_channels c store :=
  channel_loop_failed c store fd rf _ hN

/-! ## Silence, and the order of diagnostics and delays -/

/-- C11: for every store, the call with `report_fail = false` writes no diagnostic at
all: no event of its trace is a per-defect message or the summary. -/
theorem C11_silent_call_writes_no_diagnostic (c : RcInputLimits) (store : ParamStore)
    (mavlink_fd : Int) :
    (∀ e ∈ (rc_calibration_check c store mavlink_fd false).trace, is_diagnostic e = false) ∧
    (rc_calibration_check c store mavlink_fd false).trace.countP is_defect_diagnostic = 0 ∧
    (rc_calibration_check c store mavlink_fd false).trace.countP is_summary_diagnostic = 0 := by
  have hloop := final_loop_state_all (fun e => is_diagnostic e = false) c store mavlink_fd false
    (fun h => absurd h (by decide)) rfl
  have hall : ∀ e ∈ (rc_calibration_check c store mavlink_fd false).trace,
      is_diagnostic e = false := by
    intro e he
    rw [trace_eq] at he
    by_cases hc : (final_loop_state c store mavlink_fd false).channels_failed ≠ 0
    · rw [if_pos hc] at he
      simp only [Bool.false_eq_true, if_false, List.append_nil, List.mem_append,
        List.mem_singleton] at he
      rcases he with (he | he) | he
      · exact hloop e he
      · rw [he]; rfl
      · rw [he]; rfl
    · rw [if_neg hc] at he
      exact hloop e he
  refine ⟨hall, ?_, ?_⟩
  · rw [List.countP_eq_zero]
    intro e he
    have := hall e he
    unfold is_diagnostic at this
    simp only [Bool.or_eq_false_iff] at this
    simp [this.1]
  · rw [List.countP_eq_zero]
    intro e he
    have := hall e he
    unfold is_diagnostic at this
    simp only [Bool.or_eq_false_iff] at this
    simp [this.2]

/-- C14, as stated, fails: on a store with one defect in channel 3, the call with
reporting on sleeps 2 s before it writes the summary, and the delay between the
summary and the return is the 100 ms one. -/
theorem C14_counterexample_long_delay_precedes_summary :
    (rc_calibration_check three_channel_limits one_defect_store 1 true).trace =
      [Event.mavlink_log_critical 1 "RC ERR: RC_3_MIN < 900", Event.usleep 100000,
       Event.sleep 2,
       Event.mavlink_and_console_log_critical 1 "1 config error for 1 RC channel.",
       Event.usleep 100000] := by
  decide

/-- C14, amended: whenever the call emits the summary, its trace ends with the 2 s
delay, then the summary, then one 100 ms delay, and everything before the 2 s delay
is a per-defect diagnostic or a 100 ms pacing delay. -/
theorem C14_summary_between_long_and_short_delay (c : RcInputLimits) (store : ParamStore)
    (mavlink_fd : Int) (report_fail : Bool) (fd : Int) (msg : String)
    (hmem : Event.mavlink_and_console_log_critical fd msg ∈
      (rc_calibration_check c store mavlink_fd report_fail).trace) :
    ∃ pre : List Event,
      (rc_calibration_check c store mavlink_fd report_fail).trace =
        pre ++ [Event.sleep 2, Event.mavlink_and_console_log_critical fd msg,
          Event.usleep 100000] ∧
      ∀ e ∈ pre, is_pacing_step e = true := by
  have hloop := final_loop_state_all (fun e => is_pacing_step e = true) c store mavlink_fd
    report_fail (fun _ _ => rfl) rfl
  refine ⟨(final_loop_state c store mavlink_fd report_fail).trace, ?_, hloop⟩
  rw [trace_eq] at hmem ⊢
  by_cases hc : (final_loop_state c store mavlink_fd report_fail).channels_failed ≠ 0
  · rw [if_pos hc] at hmem ⊢
    by_cases hr : report_fail = true
    · rw [if_pos hr] at hmem ⊢
      simp only [List.mem_append, List.mem_singleton] at hmem
      rcases hmem with ((he | he) | he) | he
      · have := hloop _ he
        simp [is_pacing_step] at this
      · cases he
      · rw [he]; simp
      · cases he
    · rw [if_neg hr] at hmem
      simp only [List.append_nil, List.mem_append, List.mem_singleton] at hmem
      rcases hmem with (he | he) | he
      · have := hloop _ he
        simp [is_pacing_step] at this
      · cases he
      · cases he
  · rw [if_neg hc] at hmem
    have := hloop _ hmem
    simp [is_pacing_step] at this

/-- C14 amended, on the store with one defect in channel 3. -/
theorem C14_summary_between_long_and_short_delay_witness :
    ∃ pre : List Event,
      (rc_calibration_check three_channel_limits one_defect_store 1 true).trace =
        pre ++ [Event.sleep 2,
          Event.mavlink_and_console_log_critical 1 "1 config error for 1 RC channel.",
          Event.usleep 100000] ∧
      ∀ e ∈ pre, is_pacing_step e = true :=
  C14_summary_between_long_and_short_delay three_channel_limits one_defect_store 1 true 1
    "1 config error for 1 RC channel." (by decide)

/-- C15: the code at a store with one defect in channel 3, called with
`report_fail = false`: it writes nothing, and it blocks for 100 ms, 2 s and 100 ms. -/
theorem C15_silent_call_still_delays :
    (rc_calibration_check three_channel_limits one_defect_store 1 false).trace =
      [Event.usleep 100000, Event.sleep 2, Event.usleep 100000] ∧
    (rc_calibration_check three_channel_limits one_defect_store 1 false).trace.countP
      is_delay = 3 := by
  refine ⟨by decide, by decide⟩

/-! ## Lemmas on the summary and on the parameter names -/

theorem fmt_d_unsigned_of_lt (n : Nat) (h : n < 2 ^ 31) : fmt_d_unsigned n = toString n := by
  have h1 : n % 2 ^ 32 = n := Nat.mod_eq_of_lt (by omega)
  unfold fmt_d_unsigned toInt32
  rw [h1, if_pos h]
  rfl

theorem summary_text_eq_spec (a b : Nat) (ha : a < 2 ^ 31) (hb : b < 2 ^ 31) :
    summary_text a b = spec_summary_text a b := by
  unfold summary_text spec_summary_text
  rw [fmt_d_unsigned_of_lt a ha, fmt_d_unsigned_of_lt b hb]

/-- The summary is in the trace only as the event the last block writes. -/
theorem summary_mem (c : RcInputLimits) (store : ParamStore) (fd : Int) (rf : Bool)
    (fd2 : Int) (msg : String)
    (hmem : Event.mavlink_and_console_log_critical fd2 msg ∈
      (rc_calibration_check c store fd rf).trace) :
    rf = true ∧ (final_loop_state c store fd rf).channels_failed ≠ 0 ∧ fd2 = fd ∧
      msg = summary_text (final_loop_state c store fd rf).total_fail_count
        (final_loop_state c store fd rf).channels_failed := by
  have hloop := final_loop_state_all (fun e => is_pacing_step e = true) c store fd rf
    (fun _ _ => rfl) rfl
  rw [trace_eq] at hmem
  by_cases hc : (final_loop_state c store fd rf).channels_failed ≠ 0
  · rw [if_pos hc] at hmem
    by_cases hr : rf = true
    · rw [if_pos hr] at hmem
      simp only [List.mem_append, List.mem_singleton] at hmem
      rcases hmem with ((he | he) | he) | he
      · have := hloop _ he
        simp [is_pacing_step] at this
      · cases he
      · injection he with h1 h2
        exact ⟨hr, hc, h1, h2⟩
      · cases he
    · rw [if_neg hr] at hmem
      simp only [List.append_nil, List.mem_append, List.mem_singleton] at hmem
      rcases hmem with (he | he) | he
      · have := hloop _ he
        simp [is_pacing_step] at this
      · cases he
      · cases he
  · rw [if_neg hc] at hmem
    have := hloop _ hmem
    simp [is_pacing_step] at this

theorem total_channel_defects_le (c : RcInputLimits) (store : ParamStore) :
    total_channel_defects c store ≤ 5 * c.RC_INPUT_MAX_CHANNELS := by
  have := sum_channel_defects_le c store (List.range c.RC_INPUT_MAX_CHANNELS)
  simpa [total_channel_defects] using this

theorem failed_channels_le (c : RcInputLimits) (store : ParamStore) :
    failed_channels c store ≤ c.RC_INPUT_MAX_CHANNELS := by
  have := List.countP_le_length (fun i => decide (channel_defects c store i ≠ 0))
    (l := List.range c.RC_INPUT_MAX_CHANNELS)
  simpa [failed_channels] using this

/-- The last character of a per-channel parameter name is that of its suffix. -/
theorem last_char_name (i : Nat) (suffix : String) (h : suffix.data ≠ []) :
    (channel_param_name i suffix).data.getLast? = suffix.data.getLast? := by
  unfold channel_param_name
  simp only [String.data_append]
  rw [List.getLast?_append_of_ne_nil _ h]

/-- No `MIN`, `TRIM`, `MAX` or `DZ` name of any channel is the `REV` name of a channel. -/
theorem name_ne_rev (i j : Nat) (suffix : String) (h : suffix ∈ ["MIN", "TRIM", "MAX", "DZ"]) :
    channel_param_name i suffix ≠ channel_param_name j "REV" := by
  intro heq
  have h1 : (channel_param_name i suffix).data.getLast? =
      (channel_param_name j "REV").data.getLast? := by rw [heq]
  simp only [List.mem_cons, List.mem_singleton, List.mem_nil_iff, or_false] at h
  rw [last_char_name j "REV" (by decide)] at h1
  rcases h with h | h | h | h <;> subst h <;>
    rw [last_char_name i _ (by decide)] at h1 <;> revert h1 <;> decide

/-- The checks do not read the fetched reverse flag. -/
theorem channel_checks_ignore_rev (c : RcInputLimits) (fd : Int) (rf : Bool) (i : Nat)
    (v w : ChannelCalibration) (tr : List Event)
    (h1 : w.param_min = v.param_min) (h2 : w.param_trim = v.param_trim)
    (h3 : w.param_max = v.param_max) (h4 : w.param_dz = v.param_dz) :
    channel_checks c fd rf i w tr = channel_checks c fd rf i v tr := by
  simp only [channel_checks, check_min, check_max, check_trim_min, check_trim_max, check_dz,
    h1, h2, h3, h4]

theorem channel_iter_ignore_rev (c : RcInputLimits) (s s2 : ParamStore) (fd : Int) (rf : Bool)
    (hfloat : ∀ i, ∀ suffix ∈ ["MIN", "TRIM", "MAX", "DZ"],
      s2.float (channel_param_name i suffix) = s.float (channel_param_name i suffix)) :
    channel_iter c s2 fd rf = channel_iter c s fd rf := by
  funext st i
  have e1 := hfloat i "MIN" (by simp)
  have e2 := hfloat i "TRIM" (by simp)
  have e3 := hfloat i "MAX" (by simp)
  have e4 := hfloat i "DZ" (by simp)
  have h := channel_checks_ignore_rev c fd rf i (fetch_channel c s i) (fetch_channel c s2 i)
    st.trace
    (by rw [fetch_channel_min, fetch_channel_min, e1])
    (by rw [fetch_channel_trim, fetch_channel_trim, e2])
    (by rw [fetch_channel_max, fetch_channel_max, e3])
    (by rw [fetch_channel_dz, fetch_channel_dz, e4])
  unfold channel_iter
  rw [h]

theorem map_check_congr (c : RcInputLimits) (s s2 : ParamStore) (fd : Int) (rf : Bool)
    (hint : ∀ name, s2.int32 name = s.int32 name) :
    map_check c s2 fd rf = map_check c s fd rf := by
  funext st name
  unfold map_check param_find param_get
  rw [hint name]
  cases s.int32 name with
  | none => rfl
  | some m => simp only [hint]

/-- Two stores that agree on the mapping parameters and on the `MIN`, `TRIM`, `MAX` and
`DZ` parameters of every channel give the same call, effects and returned value. -/
theorem outcome_ignore_rev (c : RcInputLimits) (s s2 : ParamStore) (fd : Int) (rf : Bool)
    (hint : ∀ name, s2.int32 name = s.int32 name)
    (hfloat : ∀ i, ∀ suffix ∈ ["MIN", "TRIM", "MAX", "DZ"],
      s2.float (channel_param_name i suffix) = s.float (channel_param_name i suffix)) :
    rc_calibration_check c s2 fd rf = rc_calibration_check c s fd rf := by
  unfold rc_calibration_check channel_loop map_loop
  rw [channel_iter_ignore_rev c s s2 fd rf hfloat, map_check_congr c s s2 fd rf hint]

/-! ## The text of the summary -/

/-- C12: whenever the call emits the summary, its text is
`"N config error<s> for M RC channel<s>."` with `N` the sum of the per-channel
counters over all channels, `M` the number of channels counted with a defect, the
first plural `s` present exactly when `N > 1` and the second exactly when `M > 1`
(the channel count being small enough for the 32-bit counters not to wrap). -/
theorem C12_summary_text (c : RcInputLimits) (store : ParamStore) (mavlink_fd : Int)
    (report_fail : Bool) (fd : Int) (msg : String)
    (hN : 5 * c.RC_INPUT_MAX_CHANNELS + 1 < 2 ^ 31)
    (hmem : Event.mavlink_and_console_log_critical fd msg ∈
      (rc_calibration_check c store mavlink_fd report_fail).trace) :
    msg = spec_summary_text (total_channel_defects c store) (failed_channels c store) ∧
    fd = mavlink_fd := by
  obtain ⟨_, _, hfd, hmsg⟩ := summary_mem c store mavlink_fd report_fail fd msg hmem
  have h1 := total_channel_defects_le c store
  have h2 := failed_channels_le c store
  rw [final_loop_state_total c store mavlink_fd report_fail hN,
    final_loop_state_failed c store mavlink_fd report_fail hN,
    summary_text_eq_spec _ _ (by omega) (by omega)] at hmsg
  exact ⟨hmsg, hfd⟩

/-- C12, at the two examples of the specification: one defect in one channel gives
`"1 config error for 1 RC channel."`, three defects in two channels give
`"3 config errors for 2 RC channels."`. -/
theorem C12_summary_text_witness :
    (total_channel_defects three_channel_limits one_defect_store = 1 ∧
      failed_channels three_channel_limits one_defect_store = 1 ∧
      "1 config error for 1 RC channel." =
        spec_summary_text (total_channel_defects three_channel_limits one_defect_store)
          (failed_channels three_channel_limits one_defect_store)) ∧
    (total_channel_defects three_channel_limits three_defect_store = 3 ∧
      failed_channels three_channel_limits three_defect_store = 2 ∧
      "3 config errors for 2 RC channels." =
        spec_summary_text (total_channel_defects three_channel_limits three_defect_store)
          (failed_channels three_channel_limits three_defect_store)) :=
  ⟨⟨by decide, by decide,
      (C12_summary_text three_channel_limits one_defect_store 1 true 1
        "1 config error for 1 RC channel." (by decide) (by decide)).1⟩,
    ⟨by decide, by decide,
      (C12_summary_text three_channel_limits three_defect_store 1 true 1
        "3 config errors for 2 RC channels." (by decide) (by decide)).1⟩⟩

/-! ## The reverse flag -/

/-- C13: two stores that differ only in the presence or the value of `RCn_REV`
parameters give the same call: the same returned value and the same trace, hence
the same diagnostics. -/
theorem C13_reverse_is_not_constrained (c : RcInputLimits) (s s2 : ParamStore)
    (mavlink_fd : Int) (report_fail : Bool)
    (hint : ∀ name, s2.int32 name = s.int32 name)
    (hfloat : ∀ name, (∀ i, name ≠ channel_param_name i "REV") →
      s2.float name = s.float name) :
    (rc_calibration_check c s2 mavlink_fd report_fail).ret =
      (rc_calibration_check c s mavlink_fd report_fail).ret ∧
    (rc_calibration_check c s2 mavlink_fd report_fail).trace =
      (rc_calibration_check c s mavlink_fd report_fail).trace := by
  have h := outcome_ignore_rev c s s2 mavlink_fd report_fail hint
    (fun i suffix hs => hfloat _ (fun j => name_ne_rev i j suffix hs))
  rw [h]
  exact ⟨rfl, rfl⟩

/-- C13, at the sound channel 3 and the same store with `RC3_REV` changed from 1 to
`-1`. -/
theorem C13_reverse_is_not_constrained_witness :
    reversed_store.float "RC3_REV" = some (-1) ∧ channel3_store.float "RC3_REV" = some 1 ∧
    (rc_calibration_check example_limits reversed_store 1 true).ret =
      (rc_calibration_check example_limits channel3_store 1 true).ret ∧
    (rc_calibration_check example_limits reversed_store 1 true).trace =
      (rc_calibration_check example_limits channel3_store 1 true).trace :=
  ⟨by decide, by decide,
    C13_reverse_is_not_constrained example_limits channel3_store reversed_store 1 true
      (fun _ => rfl)
      (fun name h => by
        have h2 : name ≠ "RC3_REV" := h 2
        simp [reversed_store, set_float, h2])⟩

/-! ## Lemmas on the bounds of the counters -/

/-- With `LOWEST_MIN ≤ HIGHEST_MAX` the four ordering checks cannot all fire, so at
most four of the five checks fire. -/
theorem checks_fired_le_four (c : RcInputLimits) (v : ChannelCalibration)
    (hLH : c.RC_INPUT_LOWEST_MIN_US ≤ c.RC_INPUT_HIGHEST_MAX_US) : checks_fired c v ≤ 4 := by
  have hq : (c.RC_INPUT_LOWEST_MIN_US : ℚ) ≤ (c.RC_INPUT_HIGHEST_MAX_US : ℚ) := by
    exact_mod_cast hLH
  unfold checks_fired
  split_ifs <;> first
    | omega
    | (exfalso; simp only [gt_iff_lt] at *; linarith)

theorem sum_map_le (f : Nat → Nat) (k : Nat) (h : ∀ i, f i ≤ k) (l : List Nat) :
    (l.map f).sum ≤ k * l.length := by
  induction l with
  | nil => simp
  | cons i rest ih =>
    have := h i
    simp only [List.map_cons, List.sum_cons, List.length_cons, Nat.mul_succ]
    omega

theorem sum_map_const (f : Nat → Nat) (k : Nat) (l : List Nat) (h : ∀ i ∈ l, f i = k) :
    (l.map f).sum = k * l.length := by
  induction l with
  | nil => simp
  | cons i rest ih =>
    have h1 := h i (by simp)
    have h2 := ih (fun j hj => h j (by simp [hj]))
    simp only [List.map_cons, List.sum_cons, List.length_cons, Nat.mul_succ]
    omega

/-- With a positive lowest minimum and a positive largest deadzone, a channel none of
whose checked parameters is in the store has exactly the minimum check and the
deadzone check firing. -/
theorem channel_defects_of_absent (c : RcInputLimits) (store : ParamStore) (i : Nat)
    (hL : 0 < c.RC_INPUT_LOWEST_MIN_US) (hD : 0 < c.RC_INPUT_MAX_DEADZONE_US)
    (hmin : store.float (channel_param_name i "MIN") = none)
    (htrim : store.float (channel_param_name i "TRIM") = none)
    (hmax : store.float (channel_param_name i "MAX") = none)
    (hdz : store.float (channel_param_name i "DZ") = none) :
    channel_defects c store i = 2 := by
  have hLq : (0 : ℚ) < (c.RC_INPUT_LOWEST_MIN_US : ℚ) := by exact_mod_cast hL
  have hDq : (0 : ℚ) < (c.RC_INPUT_MAX_DEADZONE_US : ℚ) := by exact_mod_cast hD
  have hHq : (0 : ℚ) ≤ (c.RC_INPUT_HIGHEST_MAX_US : ℚ) := by exact_mod_cast Nat.zero_le _
  rw [channel_defects_eq]
  unfold checks_fired
  rw [fetch_channel_min, fetch_channel_trim, fetch_channel_max, fetch_channel_dz,
    hmin, htrim, hmax, hdz]
  simp only [Option.getD_none]
  rw [if_pos hLq, if_neg (by linarith), if_neg (lt_irrefl _), if_pos (by linarith)]

/-- One pass of the mapping loop adds at most one to the counter. -/
theorem map_check_count_le (c : RcInputLimits) (store : ParamStore) (fd : Int) (rf : Bool)
    (s : MapLoopState) (name : String) :
    (map_check c store fd rf s name).map_fail_count ≤ s.map_fail_count + 1 := by
  have hw : wrap32 (s.map_fail_count + 1) ≤ s.map_fail_count + 1 := Nat.mod_le _ _
  unfold map_check param_find param_get
  cases hv : store.int32 name with
  | none => simpa using hw
  | some m =>
    simp only [Option.isSome_some, if_true, hv, Option.getD_some]
    by_cases h1 : m > (c.RC_INPUT_MAX_CHANNELS : Int)
    · have h2 : ¬ m = 0 := by omega
      rw [if_pos h1, if_neg h2]
      exact hw
    · by_cases h2 : m = 0
      · rw [if_neg h1, if_pos h2]
        exact hw
      · rw [if_neg h1, if_neg h2]
        omega

theorem map_loop_count_le (c : RcInputLimits) (store : ParamStore) (fd : Int) (rf : Bool)
    (names : List String) :
    ∀ s : MapLoopState,
      (map_loop c store fd rf names s).map_fail_count ≤ s.map_fail_count + names.length := by
  induction names with
  | nil => intro s; simp [map_loop]
  | cons name rest ih =>
    intro s
    have h1 := map_check_count_le c store fd rf s name
    have h2 := ih (map_check c store fd rf s name)
    simp only [map_loop, List.foldl_cons, List.length_cons] at h2 ⊢
    omega

/-! ## Bounds -/

/-- C16: with `LOWEST_MIN ≤ HIGHEST_MAX`, for every store no channel is counted with
more than 4 defects, the 8-bit counter holding the number of fired checks without
wrapping; 4 is attained by a channel state; and the returned value lies between 0 and
the number of mandatory mappings plus `4 * RC_INPUT_MAX_CHANNELS` (the channel count
being small enough for the 32-bit counters not to wrap). -/
theorem C16_at_most_four_defects_per_channel (c : RcInputLimits) (store : ParamStore)
    (mavlink_fd : Int) (report_fail : Bool)
    (hLH : c.RC_INPUT_LOWEST_MIN_US ≤ c.RC_INPUT_HIGHEST_MAX_US)
    (hN : 5 * c.RC_INPUT_MAX_CHANNELS + 1 < 2 ^ 31) :
    (∀ i, channel_defects c store i ≤ 4) ∧
    (∀ i tr, (channel_checks c mavlink_fd report_fail i (fetch_channel c store i) tr).count =
        checks_fired c (fetch_channel c store i) ∧
      (channel_checks c mavlink_fd report_fail i (fetch_channel c store i) tr).count < 2 ^ 8) ∧
    (∃ v : ChannelCalibration, ∀ i tr,
      (channel_checks c mavlink_fd report_fail i v tr).count = 4) ∧
    0 ≤ (rc_calibration_check c store mavlink_fd report_fail).ret ∧
    (rc_calibration_check c store mavlink_fd report_fail).ret ≤
      ((rc_map_mandatory.length + 4 * c.RC_INPUT_MAX_CHANNELS : Nat) : Int) := by
  have hd : ∀ i, channel_defects c store i ≤ 4 := fun i => by
    rw [channel_defects_eq]; exact checks_fired_le_four c _ hLH
  refine ⟨hd, ?_, ?_, ?_, ?_⟩
  · intro i tr
    rw [channel_checks_count]
    have := checks_fired_le_four c (fetch_channel c store i) hLH
    exact ⟨rfl, by omega⟩
  · refine ⟨{ param_min := -1, param_trim := -2,
              param_max := (c.RC_INPUT_HIGHEST_MAX_US : ℚ) + 1, param_rev := 0,
              param_dz := (c.RC_INPUT_MAX_DEADZONE_US : ℚ) + 1 }, ?_⟩
    intro i tr
    have h0 : (0 : ℚ) ≤ (c.RC_INPUT_LOWEST_MIN_US : ℚ) := by exact_mod_cast Nat.zero_le _
    have h1 : (0 : ℚ) ≤ (c.RC_INPUT_HIGHEST_MAX_US : ℚ) := by exact_mod_cast Nat.zero_le _
    rw [channel_checks_count]
    unfold checks_fired
    simp only []
    rw [if_pos (by linarith), if_pos (by linarith), if_pos (by norm_num),
      if_neg (by linarith), if_pos (by linarith)]
  · rw [ret_eq_sum c store mavlink_fd report_fail hN]
    exact Int.ofNat_nonneg _
  · rw [ret_eq_sum c store mavlink_fd report_fail hN]
    have h1 := sum_map_le (channel_defects c store) 4 hd (List.range c.RC_INPUT_MAX_CHANNELS)
    have h2 : mapping_failures c store ≤ 1 := by
      rw [mapping_failures_eq_of]; exact mapping_failures_of_le c store _
    simp only [List.length_range] at h1
    have h3 : rc_map_mandatory.length = 1 := rfl
    rw [h3]
    exact_mod_cast (by omega : mapping_failures c store +
      ((List.range c.RC_INPUT_MAX_CHANNELS).map (channel_defects c store)).sum ≤
        1 + 4 * c.RC_INPUT_MAX_CHANNELS)

/-- C16, with the example constants: channel 3 of `four_defect_store` is counted with
exactly 4 defects, and the returned value is between 0 and `1 + 4 * 18`. -/
theorem C16_at_most_four_defects_per_channel_witness :
    channel_defects example_limits four_defect_store 2 = 4 ∧
    0 ≤ (rc_calibration_check example_limits four_defect_store 1 true).ret ∧
    (rc_calibration_check example_limits four_defect_store 1 true).ret ≤ 73 :=
  ⟨by decide,
    (C16_at_most_four_defects_per_channel example_limits four_defect_store 1 true
      (by decide) (by decide)).2.2.2.1,
    (C16_at_most_four_defects_per_channel example_limits four_defect_store 1 true
      (by decide) (by decide)).2.2.2.2⟩

/-- C17: with `LOWEST_MIN > 0` and `MAX_DEADZONE > 0` (`HIGHEST_MAX ≥ 0` holds of
every constant of the model), a channel whose five parameters are all absent is
counted with exactly 2 defects; so on the empty store the call returns the number of
mandatory mappings plus `2 * RC_INPUT_MAX_CHANNELS` and counts every channel as
failed (the channel count being small enough for the 32-bit counters not to wrap). -/
theorem C17_empty_store_count (c : RcInputLimits) (mavlink_fd : Int) (report_fail : Bool)
    (hL : 0 < c.RC_INPUT_LOWEST_MIN_US) (hD : 0 < c.RC_INPUT_MAX_DEADZONE_US)
    (hN : 5 * c.RC_INPUT_MAX_CHANNELS + 1 < 2 ^ 31) :
    (∀ (store : ParamStore) (i : Nat),
      store.float (channel_param_name i "MIN") = none →
      store.float (channel_param_name i "TRIM") = none →
      store.float (channel_param_name i "MAX") = none →
      store.float (channel_param_name i "REV") = none →
      store.float (channel_param_name i "DZ") = none →
      channel_defects c store i = 2) ∧
    (rc_calibration_check c empty_store mavlink_fd report_fail).ret =
      ((rc_map_mandatory.length + 2 * c.RC_INPUT_MAX_CHANNELS : Nat) : Int) ∧
    (final_loop_state c empty_store mavlink_fd report_fail).channels_failed =
      c.RC_INPUT_MAX_CHANNELS ∧
    failed_channels c empty_store = c.RC_INPUT_MAX_CHANNELS := by
  have h2 : ∀ i, channel_defects c empty_store i = 2 := fun i =>
    channel_defects_of_absent c empty_store i hL hD rfl rfl rfl rfl
  have hf : failed_channels c empty_store = c.RC_INPUT_MAX_CHANNELS := by
    unfold failed_channels
    rw [List.countP_eq_length.mpr, List.length_range]
    intro i _
    rw [h2 i]
    decide
  refine ⟨?_, ?_, ?_, hf⟩
  · intro store i hmin htrim hmax _ hdz
    exact channel_defects_of_absent c store i hL hD hmin htrim hmax hdz
  · rw [ret_eq_sum c empty_store mavlink_fd report_fail hN,
      sum_map_const (channel_defects c empty_store) 2 _ (fun i _ => h2 i),
      List.length_range, mapping_failures_eq_of]
    rfl
  · rw [final_loop_state_failed c empty_store mavlink_fd report_fail hN, hf]

/-- C17, with the example constants: on the empty store the call returns
`1 + 2 * 18 = 37` and counts all 18 channels as failed. -/
theorem C17_empty_store_count_witness :
    0 < example_limits.RC_INPUT_LOWEST_MIN_US ∧ 0 < example_limits.RC_INPUT_MAX_DEADZONE_US ∧
    (rc_calibration_check example_limits empty_store 1 true).ret = 37 ∧
    failed_channels example_limits empty_store = 18 :=
  ⟨by decide, by decide,
    (C17_empty_store_count example_limits 1 true (by decide) (by decide) (by decide)).2.1,
    (C17_empty_store_count example_limits 1 true (by decide) (by decide) (by decide)).2.2.2⟩

/-- C18: for every store, a pass of the mapping loop adds at most one to the
mapping-failure counter, the three failures of a name being mutually exclusive (an
index above the channel count is not 0), so the counter never exceeds the number of
names examined, and the mapping-failure count of a call never exceeds the number of
mandatory mapping names. -/
theorem C18_at_most_one_failure_per_mapping (c : RcInputLimits) (store : ParamStore) :
    (∀ (mavlink_fd : Int) (report_fail : Bool) (s : MapLoopState) (name : String),
      (map_check c store mavlink_fd report_fail s name).map_fail_count ≤
        s.map_fail_count + 1) ∧
    (∀ name, mapping_failures_of c store name ≤ 1) ∧
    (∀ mapping : Int, ¬ (mapping > (c.RC_INPUT_MAX_CHANNELS : Int) ∧ mapping = 0)) ∧
    (∀ (mavlink_fd : Int) (report_fail : Bool) (names : List String) (tr : List Event),
      (map_loop c store mavlink_fd report_fail names
        { trace := tr, map_fail_count := 0 }).map_fail_count ≤ names.length) ∧
    mapping_failures c store ≤ rc_map_mandatory.length := by
  refine ⟨fun fd rf s name => map_check_count_le c store fd rf s name,
    fun name => mapping_failures_of_le c store name, ?_, ?_, ?_⟩
  · rintro m ⟨h1, h2⟩
    omega
  · intro fd rf names tr
    have := map_loop_count_le c store fd rf names { trace := tr, map_fail_count := 0 }
    simpa using this
  · have := map_loop_count_le c store 0 false rc_map_mandatory
      { trace := [], map_fail_count := 0 }
    simpa [mapping_failures] using this


end RcCheck
